import Mathlib

/-!
Shallow embedding of `src/main.py` of the can2mqtt repository: a bidirectional
CAN-bus / MQTT bridge.  The module-level mutable dictionaries and set
(`last_known_messages`, `last_unknown_messages`, `published_topics`) become an
explicit `BridgeState` threaded through the handlers; MQTT publishes, CAN bus
sends and `print` calls become effect lists; Python exceptions become
`Except PyErr` values, with the handlers' `try/except` blocks embedded as
matches on those values.  External collaborators (the cantools database, the
`json` module's parser, bytes-UTF-8 decoding) are modelled by a `Codec`
parameter, a parse-function parameter, and an executable UTF-8 decoder.

Modelling conventions:
* Python dicts become insertion-ordered association lists (`dictGet`,
  `dictSet`); the Python set `published_topics` becomes an insertion-ordered
  duplicate-free list (`setAdd`).  Dict equality is structural equality of the
  association lists; all comparisons performed by the source compare two decode
  results of the same message definition, for which key order is stable, so
  order-insensitivity of Python dict equality is not observable here.
* `cantools` `NamedSignalValue` instances are modelled by the
  `PyValue.named name value` constructor, compared by name and value as two
  such instances compare under `cantools`.
* `json.dumps` is modelled for the value shapes this program serializes
  (strings, integers, flat or nested dicts/lists); its string escaping covers
  the quote and backslash characters; it fails (Python `TypeError`) on a
  `NamedSignalValue`, which is not JSON serializable.
-/

/-- A Python exception as far as the source's `except` clauses distinguish
them: `KeyError`, `json.JSONDecodeError`, and everything else. -/
inductive PyErr where
  | keyError
  | jsonDecodeError
  | otherError (msg : String)
deriving DecidableEq

/-- Python message text used by the `print` logging when an exception `e` is
interpolated. -/
def errMsg : PyErr → String
  | .keyError => "KeyError"
  | .jsonDecodeError => "JSONDecodeError"
  | .otherError m => m

/-- A Python value as it appears in a `cantools` decode result: scalars,
`NamedSignalValue` instances, and (recursively) dicts and lists — the four
shapes `convert_named_signal_values` (main.py lines 65-82) dispatches on. -/
inductive PyValue where
  | num (n : Int)
  | str (s : String)
  | named (name : String) (value : Int)
  | dict (fields : List (String × PyValue))
  | list (items : List PyValue)

mutual

/-- Structural equality test for `PyValue` (Python `==` between two decode
results of the same message definition). -/
def pyBeq : PyValue → PyValue → Bool
  | .num a, .num b => a == b
  | .str a, .str b => a == b
  | .named n1 v1, .named n2 v2 => n1 == n2 && v1 == v2
  | .dict f1, .dict f2 => pyBeqFields f1 f2
  | .list l1, .list l2 => pyBeqList l1 l2
  | _, _ => false

/-- Equality test for dict entry lists. -/
def pyBeqFields : List (String × PyValue) → List (String × PyValue) → Bool
  | [], [] => true
  | (k1, v1) :: r1, (k2, v2) :: r2 => k1 == k2 && pyBeq v1 v2 && pyBeqFields r1 r2
  | _, _ => false

/-- Equality test for lists of values. -/
def pyBeqList : List PyValue → List PyValue → Bool
  | [], [] => true
  | v1 :: r1, v2 :: r2 => pyBeq v1 v2 && pyBeqList r1 r2
  | _, _ => false

end

mutual

theorem pyBeq_eq : (a b : PyValue) → pyBeq a b = true → a = b
  | .num x, .num y, h => by simp [pyBeq] at h; simp [h]
  | .num _, .str _, h => by simp [pyBeq] at h
  | .str x, .str y, h => by simp [pyBeq] at h; simp [h]
  | .named n1 v1, .named n2 v2, h => by
      simp [pyBeq] at h; simp [h.1, h.2]
  | .dict f1, .dict f2, h => by
      have := pyBeqFields_eq f1 f2 h
      simp [this]
  | .list l1, .list l2, h => by
      have := pyBeqList_eq l1 l2 h
      simp [this]
  | .num _, .named _ _, h => by simp [pyBeq] at h
  | .num _, .dict _, h => by simp [pyBeq] at h
  | .num _, .list _, h => by simp [pyBeq] at h
  | .str _, .num _, h => by simp [pyBeq] at h
  | .str _, .named _ _, h => by simp [pyBeq] at h
  | .str _, .dict _, h => by simp [pyBeq] at h
  | .str _, .list _, h => by simp [pyBeq] at h
  | .named _ _, .num _, h => by simp [pyBeq] at h
  | .named _ _, .str _, h => by simp [pyBeq] at h
  | .named _ _, .dict _, h => by simp [pyBeq] at h
  | .named _ _, .list _, h => by simp [pyBeq] at h
  | .dict _, .num _, h => by simp [pyBeq] at h
  | .dict _, .str _, h => by simp [pyBeq] at h
  | .dict _, .named _ _, h => by simp [pyBeq] at h
  | .dict _, .list _, h => by simp [pyBeq] at h
  | .list _, .num _, h => by simp [pyBeq] at h
  | .list _, .str _, h => by simp [pyBeq] at h
  | .list _, .named _ _, h => by simp [pyBeq] at h
  | .list _, .dict _, h => by simp [pyBeq] at h

theorem pyBeqFields_eq : (f1 f2 : List (String × PyValue)) → pyBeqFields f1 f2 = true → f1 = f2
  | [], [], _ => rfl
  | (k1, v1) :: r1, (k2, v2) :: r2, h => by
      simp only [pyBeqFields, Bool.and_eq_true] at h
      have h1 := pyBeq_eq v1 v2 h.1.2
      have h2 := pyBeqFields_eq r1 r2 h.2
      have h3 : k1 = k2 := by simpa using h.1.1
      simp [h1, h2, h3]
  | [], (_, _) :: _, h => by simp [pyBeqFields] at h
  | (_, _) :: _, [], h => by simp [pyBeqFields] at h

theorem pyBeqList_eq : (l1 l2 : List PyValue) → pyBeqList l1 l2 = true → l1 = l2
  | [], [], _ => rfl
  | v1 :: r1, v2 :: r2, h => by
      simp only [pyBeqList, Bool.and_eq_true] at h
      have h1 := pyBeq_eq v1 v2 h.1
      have h2 := pyBeqList_eq r1 r2 h.2
      simp [h1, h2]
  | [], _ :: _, h => by simp [pyBeqList] at h
  | _ :: _, [], h => by simp [pyBeqList] at h

end

mutual

theorem pyBeq_refl : (a : PyValue) → pyBeq a a = true
  | .num _ => by simp [pyBeq]
  | .str _ => by simp [pyBeq]
  | .named _ _ => by simp [pyBeq]
  | .dict f => by simp [pyBeq, pyBeqFields_refl f]
  | .list l => by simp [pyBeq, pyBeqList_refl l]

theorem pyBeqFields_refl : (f : List (String × PyValue)) → pyBeqFields f f = true
  | [] => rfl
  | (_, v) :: r => by simp [pyBeqFields, pyBeq_refl v, pyBeqFields_refl r]

theorem pyBeqList_refl : (l : List PyValue) → pyBeqList l l = true
  | [] => rfl
  | v :: r => by simp [pyBeqList, pyBeq_refl v, pyBeqList_refl r]

end

instance : DecidableEq PyValue := fun a b =>
  if h : pyBeq a b = true then .isTrue (pyBeq_eq a b h)
  else .isFalse (fun he => h (he ▸ pyBeq_refl a))

/-- A JSON value as returned by `json.loads` (objects are the final Python
dict: later duplicate keys already collapsed). -/
inductive JsonVal where
  | null
  | bool (b : Bool)
  | num (n : Int)
  | str (s : String)
  | arr (items : List JsonVal)
  | obj (fields : List (String × JsonVal))

/-- A CAN frame: `can.Message`'s `arbitration_id` and `data` bytes as the
bridge uses them. -/
structure RawFrame where
  arbitration_id : Int
  data : List Nat
deriving DecidableEq

/-- The slice of a `cantools` message definition the bridge reads: its frame
id and name. -/
structure MessageDef where
  frame_id : Int
  name : String
deriving DecidableEq

/-- The external cantools database and codec (`db` in main.py), modelled by
its four operations the bridge calls.  `get_message_by_frame_id` and
`get_message_by_name` return `none` where cantools raises `KeyError`;
`decode` and `encode` may fail with any exception. -/
structure Codec where
  get_message_by_frame_id : Int → Option MessageDef
  decode : MessageDef → List Nat → Except PyErr PyValue
  get_message_by_name : String → Option MessageDef
  encode : MessageDef → JsonVal → Except PyErr (List Nat)

/-- One `client.publish(topic, payload, retain=...)` call.  `payload = none`
is Python `payload=None` (the empty clearing payload). -/
structure Publish where
  topic : String
  payload : Option String
  retain : Bool
deriving DecidableEq

/-- Externally visible effects of running a handler: MQTT publishes, CAN bus
sends, and `print` log lines, each in program order. -/
structure Effects where
  pubs : List Publish
  sends : List RawFrame
  logs : List String
deriving DecidableEq

/-- The empty effect list. -/
def emptyEffects : Effects := ⟨[], [], []⟩

/-- Concatenation of effects of two sequentially executed units of work. -/
def Effects.app (e1 e2 : Effects) : Effects :=
  ⟨e1.pubs ++ e2.pubs, e1.sends ++ e2.sends, e1.logs ++ e2.logs⟩

/-- The module-level mutable state of main.py lines 57-62:
`last_known_messages` (message name → last decode result),
`last_unknown_messages` (frame id → last hex string), and the set
`published_topics`. -/
structure BridgeState where
  last_known_messages : List (String × PyValue)
  last_unknown_messages : List (Int × String)
  published_topics : List String
deriving DecidableEq

/-- The state at program start: all three containers empty. -/
def stEmpty : BridgeState := ⟨[], [], []⟩

/-- Python dict lookup `d[k]` / `k in d`: first (unique) binding of `k`. -/
def dictGet {α β : Type} [DecidableEq α] : List (α × β) → α → Option β
  | [], _ => none
  | (k2, v) :: rest, k => if k = k2 then some v else dictGet rest k

/-- Python dict assignment `d[k] = v`: overwrite in place, or append a new
binding (insertion order preserved, as for Python dicts). -/
def dictSet {α β : Type} [DecidableEq α] : List (α × β) → α → β → List (α × β)
  | [], k, v => [(k, v)]
  | (k2, v2) :: rest, k, v =>
      if k = k2 then (k, v) :: rest else (k2, v2) :: dictSet rest k v

/-- Python set add `s.add(x)`: no-op when present, else record the element. -/
def setAdd (s : List String) (t : String) : List String :=
  if t ∈ s then s else s ++ [t]

/-- Lowercase hex digit for a nibble, as `binascii.hexlify` emits. -/
def hexDigit (n : Nat) : Char :=
  if n < 10 then Char.ofNat (48 + n) else Char.ofNat (87 + n)

/-- The character list of `binascii.hexlify(data)` (two lowercase digits per
byte; bytes are values below 256). -/
def hexlifyChars : List Nat → List Char
  | [] => []
  | b :: rest => hexDigit (b / 16 % 16) :: hexDigit (b % 16) :: hexlifyChars rest

/-- `binascii.hexlify(msg.data).decode('ascii')` (main.py line 146). -/
def hexlify (bs : List Nat) : String := String.mk (hexlifyChars bs)

/-- Value of one hex character, accepting both cases as `binascii.unhexlify`
does. -/
def hexVal (c : Char) : Option Nat :=
  if '0' ≤ c ∧ c ≤ '9' then some (c.toNat - 48)
  else if 'a' ≤ c ∧ c ≤ 'f' then some (c.toNat - 87)
  else if 'A' ≤ c ∧ c ≤ 'F' then some (c.toNat - 55)
  else none

/-- `binascii.unhexlify` on a character list: `none` for odd length or a
non-hex character (Python `binascii.Error`). -/
def unhexlifyChars : List Char → Option (List Nat)
  | [] => some []
  | [_] => none
  | c1 :: c2 :: rest =>
      match hexVal c1, hexVal c2, unhexlifyChars rest with
      | some h, some l, some bs => some ((h * 16 + l) :: bs)
      | _, _, _ => none

/-- `binascii.unhexlify(x)` where `x` is a JSON-derived Python value: only a
string is accepted (`TypeError` otherwise), and its characters must be an
even number of hex digits. -/
def pyUnhexlify : JsonVal → Except PyErr (List Nat)
  | .str s =>
      match unhexlifyChars s.data with
      | some bs => .ok bs
      | none => .error (.otherError "binascii.Error: Non-hexadecimal digit found")
  | _ => .error (.otherError "TypeError: argument should be a bytes-like object or ASCII string")

/-- Decimal digit accumulation for `int(str)`. -/
def digitsAux : List Char → Nat → Option Nat
  | [], acc => some acc
  | c :: rest, acc =>
      if '0' ≤ c ∧ c ≤ '9' then digitsAux rest (acc * 10 + (c.toNat - 48)) else none

/-- Python `int(...)` applied to a string's characters: an optional sign
followed by at least one decimal digit (surrounding whitespace and
underscore separators, which Python also accepts, do not occur in the
payloads modelled here). -/
def pyIntOfChars : List Char → Option Int
  | [] => none
  | '-' :: rest =>
      match rest with
      | [] => none
      | _ => (digitsAux rest 0).map (fun n => -(n : Int))
  | '+' :: rest =>
      match rest with
      | [] => none
      | _ => (digitsAux rest 0).map Int.ofNat
  | cs => (digitsAux cs 0).map Int.ofNat

/-- Python `int(x)` on a JSON-derived value: integers pass through, booleans
coerce, decimal strings parse (`ValueError` on a non-numeric string),
anything else is a `TypeError`. -/
def pyInt : JsonVal → Except PyErr Int
  | .num n => .ok n
  | .bool b => .ok (if b then 1 else 0)
  | .str s =>
      match pyIntOfChars s.data with
      | some n => .ok n
      | none => .error (.otherError "ValueError: invalid literal for int()")
  | _ => .error (.otherError "TypeError: int() argument must be a string or a number")

/-- Continuation byte test for UTF-8. -/
def isCont (b : Nat) : Bool := 0x80 ≤ b && b ≤ 0xBF

/-- Strict UTF-8 decoding of a byte list into characters (`bytes.decode()`);
`none` on any malformed, overlong or surrogate-encoding sequence, as Python's
strict codec rejects them. -/
def utf8DecodeChars : List Nat → Option (List Char)
  | [] => some []
  | b :: rest =>
    if b < 0x80 then
      match utf8DecodeChars rest with
      | some cs => some (Char.ofNat b :: cs)
      | none => none
    else if 0xC2 ≤ b && b ≤ 0xDF then
      match rest with
      | b2 :: rest2 =>
        if isCont b2 then
          match utf8DecodeChars rest2 with
          | some cs => some (Char.ofNat ((b - 0xC0) * 0x40 + (b2 - 0x80)) :: cs)
          | none => none
        else none
      | [] => none
    else if 0xE0 ≤ b && b ≤ 0xEF then
      match rest with
      | b2 :: b3 :: rest3 =>
        if (if b == 0xE0 then 0xA0 ≤ b2 && b2 ≤ 0xBF
            else if b == 0xED then 0x80 ≤ b2 && b2 ≤ 0x9F
            else isCont b2) && isCont b3 then
          match utf8DecodeChars rest3 with
          | some cs =>
              some (Char.ofNat ((b - 0xE0) * 0x1000 + (b2 - 0x80) * 0x40 + (b3 - 0x80)) :: cs)
          | none => none
        else none
      | _ => none
    else if 0xF0 ≤ b && b ≤ 0xF4 then
      match rest with
      | b2 :: b3 :: b4 :: rest4 =>
        if (if b == 0xF0 then 0x90 ≤ b2 && b2 ≤ 0xBF
            else if b == 0xF4 then 0x80 ≤ b2 && b2 ≤ 0x8F
            else isCont b2) && isCont b3 && isCont b4 then
          match utf8DecodeChars rest4 with
          | some cs =>
              some (Char.ofNat ((b - 0xF0) * 0x40000 + (b2 - 0x80) * 0x1000
                      + (b3 - 0x80) * 0x40 + (b4 - 0x80)) :: cs)
          | none => none
        else none
      | _ => none
    else none

/-- `payload.decode()` (main.py line 199): UTF-8 decode of the MQTT payload
bytes, raising `UnicodeDecodeError` on undecodable input. -/
def utf8Decode (bs : List Nat) : Except PyErr String :=
  match utf8DecodeChars bs with
  | some cs => .ok (String.mk cs)
  | none => .error (.otherError "UnicodeDecodeError: invalid byte sequence")

/-- JSON string escaping of `json.dumps` for the characters this program can
publish (quote and backslash; no control or non-ASCII characters occur in the
message names, signal names, labels or hex strings serialized here). -/
def escapeChars : List Char → List Char
  | [] => []
  | c :: rest =>
      (if c = '"' then ['\\', '"']
       else if c = '\\' then ['\\', '\\']
       else [c]) ++ escapeChars rest

/-- A JSON string literal: quoted, escaped. -/
def jsonQuote (s : String) : String := String.mk ('"' :: (escapeChars s.data ++ ['"']))

/-- Join with `json.dumps`' default item separator. -/
def joinComma : List String → String
  | [] => ""
  | [s] => s
  | s :: rest => s ++ ", " ++ joinComma rest

mutual

/-- `json.dumps(v)` with default separators: fails (Python `TypeError`) on a
`NamedSignalValue`, which is not JSON serializable. -/
def json_dumps : PyValue → Except PyErr String
  | .num n => .ok (toString n)
  | .str s => .ok (jsonQuote s)
  | .named _ _ => .error (.otherError "TypeError: Object of type NamedSignalValue is not JSON serializable")
  | .dict fields =>
      match dumpFields fields with
      | .ok parts => .ok ("\x7b" ++ joinComma parts ++ "\x7d")
      | .error e => .error e
  | .list items =>
      match dumpItems items with
      | .ok parts => .ok ("[" ++ joinComma parts ++ "]")
      | .error e => .error e

/-- Serialization of the entries of a dict, in order. -/
def dumpFields : List (String × PyValue) → Except PyErr (List String)
  | [] => .ok []
  | (k, v) :: rest =>
      match json_dumps v with
      | .ok s =>
          match dumpFields rest with
          | .ok others => .ok ((jsonQuote k ++ ": " ++ s) :: others)
          | .error e => .error e
      | .error e => .error e

/-- Serialization of the items of a list, in order. -/
def dumpItems : List PyValue → Except PyErr (List String)
  | [] => .ok []
  | v :: rest =>
      match json_dumps v with
      | .ok s =>
          match dumpItems rest with
          | .ok others => .ok (s :: others)
          | .error e => .error e
      | .error e => .error e

end

mutual

/-- `convert_named_signal_values` (main.py lines 65-82): recursively convert
`NamedSignalValue` instances to their label strings, descending into dicts
and lists; other scalars pass through. -/
def convert_named_signal_values : PyValue → PyValue
  | .dict fields => .dict (convertFields fields)
  | .list items => .list (convertList items)
  | .named name _ => .str name
  | .num n => .num n
  | .str s => .str s

/-- The dict comprehension of line 76. -/
def convertFields : List (String × PyValue) → List (String × PyValue)
  | [] => []
  | (k, v) :: rest => (k, convert_named_signal_values v) :: convertFields rest

/-- The list comprehension of line 78. -/
def convertList : List PyValue → List PyValue
  | [] => []
  | v :: rest => convert_named_signal_values v :: convertList rest

end

/-- The dictionary built at main.py lines 150-153 for an unknown frame:
`{"message_id": message_id, "data": data_hex}`. -/
def unknown_envelope (msg : RawFrame) : PyValue :=
  .dict [("message_id", .num msg.arbitration_id), ("data", .str (hexlify msg.data))]

/-- `handle_unknown_message(msg)` (main.py lines 134-179): publish the raw
data of an unknown CAN frame, deduplicated against `last_unknown_messages`
by its hex string; the whole body is wrapped in `try/except Exception`. -/
def handle_unknown_message (st : BridgeState) (msg : RawFrame) : BridgeState × Effects :=
  let message_id := msg.arbitration_id
  let data_hex := hexlify msg.data
  let message_name := "Unknown_" ++ toString message_id
  let decoded := unknown_envelope msg
  match dictGet st.last_unknown_messages message_id with
  | some last_data =>
      if data_hex ≠ last_data then
        match json_dumps decoded with
        | .ok payload =>
            let topic := "can/received/" ++ message_name
            ({ st with
                last_unknown_messages := dictSet st.last_unknown_messages message_id data_hex,
                published_topics := setAdd st.published_topics topic },
             ⟨[⟨topic, some payload, true⟩], [], []⟩)
        | .error e =>
            (st, ⟨[], [], ["Error handling unknown CAN message: " ++ errMsg e]⟩)
      else (st, emptyEffects)
  | none =>
      match json_dumps decoded with
      | .ok payload =>
          let topic := "can/received/" ++ message_name
          ({ st with
              last_unknown_messages := dictSet st.last_unknown_messages message_id data_hex,
              published_topics := setAdd st.published_topics topic },
           ⟨[⟨topic, some payload, true⟩], [], []⟩)
      | .error e =>
          (st, ⟨[], [], ["Error handling unknown CAN message: " ++ errMsg e]⟩)

/-- The `try` body of `on_can_message` (main.py lines 96-126): resolve the
frame id, decode the payload, convert named signal values, then
publish-on-change against `last_known_messages`.  A raised exception is the
`.error` result. -/
def on_can_message_body (codec : Codec) (st : BridgeState) (msg : RawFrame) :
    Except PyErr (BridgeState × List Publish) :=
  match codec.get_message_by_frame_id msg.arbitration_id with
  | none => .error .keyError
  | some message =>
    match codec.decode message msg.data with
    | .error e => .error e
    | .ok decoded =>
      let message_name := message.name
      let decoded_serializable := convert_named_signal_values decoded
      match dictGet st.last_known_messages message_name with
      | some last_decoded =>
          if decoded ≠ last_decoded then
            match json_dumps decoded_serializable with
            | .ok payload =>
                let topic := "can/received/" ++ message_name
                .ok ({ st with
                        last_known_messages := dictSet st.last_known_messages message_name decoded,
                        published_topics := setAdd st.published_topics topic },
                     [⟨topic, some payload, true⟩])
            | .error e => .error e
          else .ok (st, [])
      | none =>
          match json_dumps decoded_serializable with
          | .ok payload =>
              let topic := "can/received/" ++ message_name
              .ok ({ st with
                      last_known_messages := dictSet st.last_known_messages message_name decoded,
                      published_topics := setAdd st.published_topics topic },
                   [⟨topic, some payload, true⟩])
          | .error e => .error e

/-- `on_can_message(msg)` (main.py lines 85-131): run the `try` body; a
`KeyError` routes to `handle_unknown_message`, any other exception is logged
and swallowed. -/
def on_can_message (codec : Codec) (st : BridgeState) (msg : RawFrame) : BridgeState × Effects :=
  match on_can_message_body codec st msg with
  | .ok (st2, pubs) => (st2, ⟨pubs, [], []⟩)
  | .error .keyError => handle_unknown_message st msg
  | .error e => (st, ⟨[], [], ["Error processing CAN message: " ++ errMsg e]⟩)

/-- Sequential delivery of a list of CAN frames to `on_can_message`, in bus
arrival order, accumulating effects. -/
def processFrames (codec : Codec) (st : BridgeState) : List RawFrame → BridgeState × Effects
  | [] => (st, emptyEffects)
  | m :: rest =>
      let r1 := on_can_message codec st m
      let r2 := processFrames codec r1.1 rest
      (r2.1, r1.2.app r2.2)

/-- Delivery of the same frame `n` times in sequence. -/
def processRepeated (codec : Codec) (st : BridgeState) (msg : RawFrame) (n : Nat) :
    BridgeState × Effects :=
  processFrames codec st (List.replicate n msg)

/-- First binding of a key in a parsed JSON object's field list. -/
def jlookup : List (String × JsonVal) → String → Option JsonVal
  | [], _ => none
  | (k2, v) :: rest, k => if k = k2 then some v else jlookup rest k

/-- `data_dict.get(key)` after `json.loads`, collapsed to its observable
outcome: a JSON `null` value is Python `None`, i.e. indistinguishable from an
absent key; the total variant used in statements about the handler. -/
def jsonGetField (j : JsonVal) (k : String) : Option JsonVal :=
  match j with
  | .obj fields =>
      match jlookup fields k with
      | some .null => none
      | v => v
  | _ => none

/-- `data_dict.get(key)` as executed: on a non-dict parse result (a JSON
array or scalar) the attribute access raises `AttributeError`. -/
def dictGetJson (j : JsonVal) (k : String) : Except PyErr (Option JsonVal) :=
  match j with
  | .obj _ => .ok (jsonGetField j k)
  | _ => .error (.otherError "AttributeError: object has no attribute get")

/-- The `try` body of `handle_unknown_mqtt_message` (main.py lines 234-250):
parse the payload, fetch `message_id` and `data`, bail out (`.ok none`) with
a print when either is missing, unhexlify the data, coerce the id with
`int()` and build the frame to send. -/
def handle_unknown_mqtt_body (jsonLoads : String → Option JsonVal) (payload_str : String) :
    Except PyErr (Option RawFrame) :=
  match jsonLoads payload_str with
  | none => .error .jsonDecodeError
  | some data_dict =>
    match dictGetJson data_dict "message_id" with
    | .error e => .error e
    | .ok message_id? =>
      match dictGetJson data_dict "data" with
      | .error e => .error e
      | .ok data_hex? =>
        match message_id?, data_hex? with
        | some message_id, some data_hex =>
            match pyUnhexlify data_hex with
            | .error e => .error e
            | .ok data_bytes =>
                match pyInt message_id with
                | .error e => .error e
                | .ok mid => .ok (some ⟨mid, data_bytes⟩)
        | _, _ => .ok none

/-- `handle_unknown_mqtt_message(message_name, payload_str)` (main.py lines
223-252): run the body; `.ok none` is the invalid-payload early return with
its print; any exception is caught by `except Exception`, logged and
swallowed.  A successful run sends the constructed frame on the bus. -/
def handle_unknown_mqtt_message (jsonLoads : String → Option JsonVal)
    (payload_str : String) : Effects :=
  match handle_unknown_mqtt_body jsonLoads payload_str with
  | .ok (some frame) => ⟨[], [frame], []⟩
  | .ok none => ⟨[], [], ["Invalid payload for unknown message."]⟩
  | .error e => ⟨[], [], ["Error handling unknown MQTT message: " ++ errMsg e]⟩

/-- `msg.topic.split('/')[-1]` (main.py line 198). -/
def lastSegment (topic : String) : String := (topic.splitOn "/").getLastD ""

/-- The `try` body of `on_mqtt_message` (main.py lines 202-212): resolve the
candidate message name, parse the JSON payload, encode the field map and
build the frame sent on the bus. -/
def on_mqtt_message_body (codec : Codec) (jsonLoads : String → Option JsonVal)
    (message_name : String) (payload_str : String) : Except PyErr RawFrame :=
  match codec.get_message_by_name message_name with
  | none => .error .keyError
  | some message =>
    match jsonLoads payload_str with
    | none => .error .jsonDecodeError
    | some data_dict =>
      match codec.encode message data_dict with
      | .error e => .error e
      | .ok data => .ok ⟨message.frame_id, data⟩

/-- `on_mqtt_message(client, userdata, msg)` (main.py lines 186-220).  Lines
198-201 (topic splitting, `msg.payload.decode()` and the two received-prints)
run before the `try` block, so a payload that is not valid UTF-8 raises out
of the handler — that is the `.error` result.  Inside the `try`, a `KeyError`
routes to `handle_unknown_mqtt_message`, a `json.JSONDecodeError` and any
other exception are logged and swallowed.  The handler never touches the
shared bridge state, which is returned unchanged. -/
def on_mqtt_message (codec : Codec) (jsonLoads : String → Option JsonVal)
    (st : BridgeState) (topic : String) (payload : List Nat) :
    Except PyErr (BridgeState × Effects) :=
  let message_name := lastSegment topic
  match utf8Decode payload with
  | .error e => .error e
  | .ok payload_str =>
    let recvLogs := ["Received Topic: " ++ topic, "Received Payload: " ++ payload_str]
    .ok (st,
      match on_mqtt_message_body codec jsonLoads message_name payload_str with
      | .ok frame => ⟨[], [frame], recvLogs⟩
      | .error .keyError =>
          let eff := handle_unknown_mqtt_message jsonLoads payload_str
          ⟨eff.pubs, eff.sends, recvLogs ++ eff.logs⟩
      | .error .jsonDecodeError =>
          ⟨[], [], recvLogs ++ ["JSON parsing error: " ++ errMsg .jsonDecodeError,
                                "Received Payload: " ++ payload_str]⟩
      | .error e => ⟨[], [], recvLogs ++ ["Error sending message: " ++ errMsg e]⟩)

/-- Sequential delivery of MQTT messages to `on_mqtt_message`.  An exception
propagating out of the callback kills the paho network thread (the client's
default `suppress_exceptions` is false), so processing stops there. -/
def processDeliveries (codec : Codec) (jsonLoads : String → Option JsonVal)
    (st : BridgeState) : List (String × List Nat) → BridgeState × Effects
  | [] => (st, emptyEffects)
  | (topic, payload) :: rest =>
      match on_mqtt_message codec jsonLoads st topic payload with
      | .ok (st1, eff) =>
          let r2 := processDeliveries codec jsonLoads st1 rest
          (r2.1, eff.app r2.2)
      | .error _ => (st, emptyEffects)

/-- `clear_retained_messages()` (main.py lines 260-273): one
`client.publish(topic, payload=None, retain=True)` per registered topic.
`fails` records which publishes the broker side fails; paho reports this via
the returned `MQTTMessageInfo` return code, which the source ignores — with
the valid topics registered here `client.publish` itself does not raise, so
the loop always reaches every topic. -/
def clear_retained_messages (fails : String → Bool) (published_topics : List String) :
    List (Publish × Bool) :=
  published_topics.map (fun topic => (⟨topic, none, true⟩, fails topic))

/-- One `handle_unknown_message` execution decomposed into its atomic
shared-memory operations, in source order (main.py lines 155-177): read
`last_unknown_messages` and evaluate the change test (lines 156-158),
`client.publish` (line 161/171), the dict assignment (line 166/176), and
`published_topics.add` (line 167/177).  `pc` is the next operation: 0 the
read-and-test, 1 the publish, 2 the dict write, 3 the set add, 4 done (an
unchanged test jumps straight to 4).  In the program all such executions run
on the single `can.Notifier` reader thread (main.py line 183), one after
another; the concurrent context they can interleave with is the main
thread, which iterates `published_topics` in `clear_retained_messages`
after the termination signal while the notifier thread is still running
(nothing stops the notifier before the sweep; `bus.shutdown()` comes only
after it). -/
structure UnknownThread where
  msg : RawFrame
  pc : Nat
deriving DecidableEq

/-- Execute the next atomic operation of one `handle_unknown_message`
execution against the shared state, returning the new shared state, the new
thread configuration and any publish it performed. -/
def unknownThreadStep (st : BridgeState) (t : UnknownThread) :
    BridgeState × UnknownThread × List Publish :=
  let message_id := t.msg.arbitration_id
  let data_hex := hexlify t.msg.data
  let topic := "can/received/Unknown_" ++ toString message_id
  match t.pc with
  | 0 =>
      let changed :=
        match dictGet st.last_unknown_messages message_id with
        | some last_data => data_hex != last_data
        | none => true
      (st, { t with pc := if changed then 1 else 4 }, [])
  | 1 =>
      match json_dumps (unknown_envelope t.msg) with
      | .ok payload => (st, { t with pc := 2 }, [⟨topic, some payload, true⟩])
      | .error _ => (st, { t with pc := 4 }, [])
  | 2 =>
      ({ st with
          last_unknown_messages := dictSet st.last_unknown_messages message_id data_hex },
       { t with pc := 3 }, [])
  | 3 =>
      ({ st with published_topics := setAdd st.published_topics topic },
       { t with pc := 4 }, [])
  | _ => (st, t, [])

/-- The drain sweep `for topic in published_topics: client.publish(topic,
payload=None, retain=True)` (main.py lines 268-270) as the main thread
executes it concurrently with the notifier thread: `n0` is the set's size
recorded when the loop's iterator was created, `pos` counts the elements
already yielded, and `crashed` records that the iterator raised.  CPython's
set iterator checks at every `next()` whether the set's size still equals
the size at iterator creation and raises
`RuntimeError: Set changed size during iteration` otherwise, which aborts
the `for` loop (there is no `try` around it), so the remaining registered
topics are never cleared. -/
structure DrainIter where
  n0 : Nat
  pos : Nat
  crashed : Bool
deriving DecidableEq

/-- One iteration of the drain loop: the iterator's `next()` — a crash when
the set's size has changed, exhaustion when all elements are yielded — and
otherwise the clearing publish of the yielded topic.  The iteration order is
the model's set order (insertion order). -/
def drainStep (st : BridgeState) (d : DrainIter) : DrainIter × List Publish :=
  if d.crashed then (d, [])
  else if st.published_topics.length ≠ d.n0 then ({ d with crashed := true }, [])
  else
    match st.published_topics[d.pos]? with
    | some topic => ({ d with pos := d.pos + 1 }, [⟨topic, none, true⟩])
    | none => (d, [])

/-- Run one `handle_unknown_message` execution on the notifier thread and
the drain sweep on the main thread under an explicit interleaving: `true`
steps the notifier thread, `false` the sweep. -/
def runDrainRace : BridgeState → UnknownThread → DrainIter → List Bool →
    BridgeState × List Publish
  | st, _, _, [] => (st, [])
  | st, t, d, b :: rest =>
      if b then
        match unknownThreadStep st t with
        | (st', t', ps) =>
            match runDrainRace st' t' d rest with
            | (st'', ps2) => (st'', ps ++ ps2)
      else
        match drainStep st d with
        | (d', ps) =>
            match runDrainRace st t d' rest with
            | (st'', ps2) => (st'', ps ++ ps2)

/-- A state with two topics already registered, as after two known messages
were published, for exercising the drain sweep. -/
def stDrain : BridgeState :=
  ⟨[], [], ["can/received/Speed", "can/received/Gear"]⟩

/-- The topic the bridge publishes a frame under: `can/received/<name>` when
the codec resolves and decodes it, `can/received/Unknown_<id>` when
resolution or decoding raises `KeyError`, and no topic at all when decoding
fails with any other exception (the frame is only logged). -/
def frameTopic (codec : Codec) (msg : RawFrame) : Option String :=
  match codec.get_message_by_frame_id msg.arbitration_id with
  | none => some ("can/received/Unknown_" ++ toString msg.arbitration_id)
  | some m =>
      match codec.decode m msg.data with
      | .ok _ => some ("can/received/" ++ m.name)
      | .error .keyError => some ("can/received/Unknown_" ++ toString msg.arbitration_id)
      | .error _ => none

/-- Whether the state already stores, under the frame's key, exactly the
content this frame carries: the decode result for a known message, the hex
string for an unknown one. -/
def frameStored (codec : Codec) (st : BridgeState) (msg : RawFrame) : Bool :=
  match codec.get_message_by_frame_id msg.arbitration_id with
  | none =>
      decide (dictGet st.last_unknown_messages msg.arbitration_id = some (hexlify msg.data))
  | some m =>
      match codec.decode m msg.data with
      | .ok decoded => decide (dictGet st.last_known_messages m.name = some decoded)
      | .error .keyError =>
          decide (dictGet st.last_unknown_messages msg.arbitration_id = some (hexlify msg.data))
      | .error _ => false

/-- Whether the frame's key has no entry at all in the state store. -/
def frameFresh (codec : Codec) (st : BridgeState) (msg : RawFrame) : Bool :=
  match codec.get_message_by_frame_id msg.arbitration_id with
  | none => decide (dictGet st.last_unknown_messages msg.arbitration_id = none)
  | some m =>
      match codec.decode m msg.data with
      | .ok _ => decide (dictGet st.last_known_messages m.name = none)
      | .error .keyError => decide (dictGet st.last_unknown_messages msg.arbitration_id = none)
      | .error _ => false

/-- The JSON text `json.dumps` produces for an unknown frame's envelope:
`{"message_id": <id>, "data": "<hex>"}`. -/
def envelopeJson (msg : RawFrame) : String :=
  "\x7b\"message_id\": " ++ toString msg.arbitration_id
    ++ ", \"data\": \"" ++ hexlify msg.data ++ "\"\x7d"

/-- Condition of claim C8 as the claim words it: the parsed payload contains
the field at all. -/
def jsonHasField (j : JsonVal) (k : String) : Bool :=
  match j with
  | .obj fields => (jlookup fields k).isSome
  | _ => false

/-- Condition of claim C8 as the claim words it: the field holds a string of
valid hex. -/
def fieldValidHex (j : JsonVal) (k : String) : Bool :=
  match j with
  | .obj fields =>
      match jlookup fields k with
      | some (.str s) => (unhexlifyChars s.data).isSome
      | _ => false
  | _ => false

/-- All entries of a byte string are below 256. -/
def validBytes (bs : List Nat) : Prop := ∀ b ∈ bs, b < 256

instance : DecidablePred validBytes := fun bs =>
  inferInstanceAs (Decidable (∀ b ∈ bs, b < 256))

/-- A one-message schema used to instantiate the theorems: message `Speed`,
frame id 0x100, one `kph` signal holding the first data byte. -/
def speedDef : MessageDef := ⟨256, "Speed"⟩

/-- A concrete codec over the `Speed` schema. -/
def speedCodec : Codec where
  get_message_by_frame_id := fun i => if i = 256 then some speedDef else none
  decode := fun m data =>
    if m.name = "Speed" then .ok (.dict [("kph", .num (data.headD 0))])
    else .error .keyError
  get_message_by_name := fun n => if n = "Speed" then some speedDef else none
  encode := fun m data_dict =>
    if m.name = "Speed" then
      match data_dict with
      | .obj fields =>
          match jlookup fields "kph" with
          | some (.num n) => .ok [(n % 256).toNat]
          | _ => .error (.otherError "EncodeError")
      | _ => .error (.otherError "EncodeError")
    else .error .keyError

/-- A codec resolving nothing, for exercising the unknown paths. -/
def emptyCodec : Codec where
  get_message_by_frame_id := fun _ => none
  decode := fun _ _ => .error (.otherError "DecodeError")
  get_message_by_name := fun _ => none
  encode := fun _ _ => .error (.otherError "EncodeError")

/-- A parse function that recognizes no payload, for malformed-JSON
scenarios. -/
def noJson : String → Option JsonVal := fun _ => none

/-- A codec whose message `Gear` (id 0x200) decodes to an enumerated
`NamedSignalValue` label, exercising the normalization path. -/
def gearDef : MessageDef := ⟨512, "Gear"⟩

/-- Codec for the `Gear` schema: the decoded dict holds a `NamedSignalValue`
with label `REVERSE`. -/
def gearCodec : Codec where
  get_message_by_frame_id := fun i => if i = 512 then some gearDef else none
  decode := fun m data =>
    if m.name = "Gear" then
      .ok (.dict [("gear", .named "REVERSE" (Int.ofNat (data.headD 0)))])
    else .error .keyError
  get_message_by_name := fun n => if n = "Gear" then some gearDef else none
  encode := fun _ _ => .error (.otherError "EncodeError")

/-- A parse fixture returning a payload whose `message_id` field holds a
non-numeric string: `{"message_id": "abc", "data": "0a"}`. -/
def badIdJson : String → Option JsonVal := fun s =>
  if s = "payload" then
    some (.obj [("message_id", .str "abc"), ("data", .str "0a")])
  else none

/-- A codec that resolves frame id 0x100 but whose decode raises `KeyError`,
exercising the implicit KeyError routing of the inbound handler. -/
def decodeKeyErrCodec : Codec where
  get_message_by_frame_id := fun i => if i = 256 then some speedDef else none
  decode := fun _ _ => .error .keyError
  get_message_by_name := fun _ => none
  encode := fun _ _ => .error (.otherError "EncodeError")

theorem dictGet_dictSet_self {α β : Type} [DecidableEq α] (d : List (α × β)) (k : α) (v : β) :
    dictGet (dictSet d k v) k = some v := by
  induction d with
  | nil => simp [dictSet, dictGet]
  | cons kv rest ih =>
      obtain ⟨k2, v2⟩ := kv
      by_cases h : k = k2
      · simp [dictSet, h, dictGet]
      · simp [dictSet, h, dictGet, ih]

theorem hexDigit_ne_special : ∀ m, m < 16 → hexDigit m ≠ '"' ∧ hexDigit m ≠ '\\' := by decide

theorem hexDigit_inj : ∀ a, a < 16 → ∀ b, b < 16 → hexDigit a = hexDigit b → a = b := by decide

theorem escapeChars_hexlifyChars : ∀ bs, escapeChars (hexlifyChars bs) = hexlifyChars bs := by
  intro bs
  induction bs with
  | nil => rfl
  | cons b rest ih =>
      have h1 := hexDigit_ne_special (b / 16 % 16) (Nat.mod_lt _ (by norm_num))
      have h2 := hexDigit_ne_special (b % 16) (Nat.mod_lt _ (by norm_num))
      simp [hexlifyChars, escapeChars, h1.1, h1.2, h2.1, h2.2, ih]

theorem jsonQuote_hexlify (bs : List Nat) :
    jsonQuote (hexlify bs) = "\"" ++ hexlify bs ++ "\"" := by
  simp only [jsonQuote, hexlify, escapeChars_hexlifyChars]
  rfl

theorem hexlifyChars_inj : ∀ bs1 bs2, validBytes bs1 → validBytes bs2 →
    hexlifyChars bs1 = hexlifyChars bs2 → bs1 = bs2 := by
  intro bs1
  induction bs1 with
  | nil =>
      intro bs2 _ _ h
      cases bs2 with
      | nil => rfl
      | cons b r => simp [hexlifyChars] at h
  | cons b1 r1 ih =>
      intro bs2 hv1 hv2 h
      cases bs2 with
      | nil => simp [hexlifyChars] at h
      | cons b2 r2 =>
          simp only [hexlifyChars, List.cons.injEq] at h
          have hb1 : b1 < 256 := hv1 b1 (by simp)
          have hb2 : b2 < 256 := hv2 b2 (by simp)
          have e1 : b1 / 16 % 16 = b2 / 16 % 16 :=
            hexDigit_inj _ (Nat.mod_lt _ (by norm_num)) _ (Nat.mod_lt _ (by norm_num)) h.1
          have e2 : b1 % 16 = b2 % 16 :=
            hexDigit_inj _ (Nat.mod_lt _ (by norm_num)) _ (Nat.mod_lt _ (by norm_num)) h.2.1
          have hr : r1 = r2 := by
            refine ih r2 ?_ ?_ h.2.2
            · intro x hx; exact hv1 x (by simp [hx])
            · intro x hx; exact hv2 x (by simp [hx])
          have hb : b1 = b2 := by omega
          simp [hb, hr]

theorem hexlify_inj {bs1 bs2 : List Nat} (h1 : validBytes bs1) (h2 : validBytes bs2)
    (h : hexlify bs1 = hexlify bs2) : bs1 = bs2 := by
  have hd : hexlifyChars bs1 = hexlifyChars bs2 := by
    have := congrArg String.data h
    simpa [hexlify] using this
  exact hexlifyChars_inj bs1 bs2 h1 h2 hd

theorem string_eq_of_data_eq {s t : String} (h : s.data = t.data) : s = t := by
  cases s; cases t; exact congrArg String.mk h

theorem envelope_dumps (msg : RawFrame) :
    json_dumps (unknown_envelope msg) = .ok (envelopeJson msg) := by
  simp only [unknown_envelope, json_dumps, dumpFields, joinComma, envelopeJson,
    jsonQuote_hexlify]
  refine congrArg Except.ok (string_eq_of_data_eq ?_)
  simp only [String.data_append, List.append_assoc]
  rfl

mutual

theorem json_dumps_convert_ok :
    (v : PyValue) → ∃ s, json_dumps (convert_named_signal_values v) = Except.ok s
  | .num n => ⟨toString n, rfl⟩
  | .str s => ⟨jsonQuote s, rfl⟩
  | .named name _ => ⟨jsonQuote name, rfl⟩
  | .dict fields =>
      match dumpFields_convert_ok fields with
      | ⟨ps, hps⟩ =>
          ⟨"\x7b" ++ joinComma ps ++ "\x7d",
           by simp [convert_named_signal_values, json_dumps, hps]⟩
  | .list items =>
      match dumpItems_convert_ok items with
      | ⟨ps, hps⟩ =>
          ⟨"[" ++ joinComma ps ++ "]",
           by simp [convert_named_signal_values, json_dumps, hps]⟩

theorem dumpFields_convert_ok :
    (fs : List (String × PyValue)) → ∃ ps, dumpFields (convertFields fs) = Except.ok ps
  | [] => ⟨[], rfl⟩
  | (k, v) :: rest =>
      match json_dumps_convert_ok v, dumpFields_convert_ok rest with
      | ⟨s, hs⟩, ⟨ps, hps⟩ =>
          ⟨(jsonQuote k ++ ": " ++ s) :: ps, by simp [convertFields, dumpFields, hs, hps]⟩

theorem dumpItems_convert_ok :
    (ls : List PyValue) → ∃ ps, dumpItems (convertList ls) = Except.ok ps
  | [] => ⟨[], rfl⟩
  | v :: rest =>
      match json_dumps_convert_ok v, dumpItems_convert_ok rest with
      | ⟨s, hs⟩, ⟨ps, hps⟩ => ⟨s :: ps, by simp [convertList, dumpItems, hs, hps]⟩

end

theorem unknown_topic_eq (s : String) :
    "can/received/" ++ ("Unknown_" ++ s) = "can/received/Unknown_" ++ s := rfl

theorem handle_unknown_changed (st : BridgeState) (msg : RawFrame)
    (h : dictGet st.last_unknown_messages msg.arbitration_id ≠ some (hexlify msg.data)) :
    handle_unknown_message st msg =
      ({ st with
          last_unknown_messages :=
            dictSet st.last_unknown_messages msg.arbitration_id (hexlify msg.data),
          published_topics :=
            setAdd st.published_topics
              ("can/received/Unknown_" ++ toString msg.arbitration_id) },
       ⟨[⟨"can/received/Unknown_" ++ toString msg.arbitration_id,
          some (envelopeJson msg), true⟩], [], []⟩) := by
  rcases hget : dictGet st.last_unknown_messages msg.arbitration_id with _ | last
  · simp [handle_unknown_message, hget, envelope_dumps, unknown_topic_eq]
  · have hne : hexlify msg.data ≠ last := by
      intro he; exact h (by rw [hget, he])
    simp [handle_unknown_message, hget, hne, envelope_dumps, unknown_topic_eq]

theorem handle_unknown_unchanged (st : BridgeState) (msg : RawFrame)
    (h : dictGet st.last_unknown_messages msg.arbitration_id = some (hexlify msg.data)) :
    handle_unknown_message st msg = (st, emptyEffects) := by
  simp [handle_unknown_message, h]

theorem handle_unknown_message_stable (st : BridgeState) (msg : RawFrame) :
    handle_unknown_message (handle_unknown_message st msg).1 msg
      = ((handle_unknown_message st msg).1, emptyEffects) := by
  by_cases h : dictGet st.last_unknown_messages msg.arbitration_id = some (hexlify msg.data)
  · rw [handle_unknown_unchanged st msg h]
    exact handle_unknown_unchanged st msg h
  · rw [handle_unknown_changed st msg h]
    exact handle_unknown_unchanged _ msg (by simp [dictGet_dictSet_self])

theorem on_can_known_changed (codec : Codec) (st : BridgeState) (msg : RawFrame)
    (m : MessageDef) (decoded : PyValue) (payload : String)
    (hres : codec.get_message_by_frame_id msg.arbitration_id = some m)
    (hdec : codec.decode m msg.data = .ok decoded)
    (hget : dictGet st.last_known_messages m.name ≠ some decoded)
    (hdump : json_dumps (convert_named_signal_values decoded) = .ok payload) :
    on_can_message codec st msg =
      ({ st with
          last_known_messages := dictSet st.last_known_messages m.name decoded,
          published_topics := setAdd st.published_topics ("can/received/" ++ m.name) },
       ⟨[⟨"can/received/" ++ m.name, some payload, true⟩], [], []⟩) := by
  rcases hg : dictGet st.last_known_messages m.name with _ | last
  · simp [on_can_message, on_can_message_body, hres, hdec, hg, hdump]
  · have hne : decoded ≠ last := fun he => hget (by rw [hg, he])
    simp [on_can_message, on_can_message_body, hres, hdec, hg, hne, hdump]

theorem on_can_known_unchanged (codec : Codec) (st : BridgeState) (msg : RawFrame)
    (m : MessageDef) (decoded : PyValue)
    (hres : codec.get_message_by_frame_id msg.arbitration_id = some m)
    (hdec : codec.decode m msg.data = .ok decoded)
    (hget : dictGet st.last_known_messages m.name = some decoded) :
    on_can_message codec st msg = (st, emptyEffects) := by
  simp [on_can_message, on_can_message_body, hres, hdec, hget, emptyEffects]

theorem on_can_keyError_route (codec : Codec) (st : BridgeState) (msg : RawFrame)
    (h : on_can_message_body codec st msg = .error .keyError) :
    on_can_message codec st msg = handle_unknown_message st msg := by
  simp [on_can_message, h]

theorem on_can_error_logged (codec : Codec) (st : BridgeState) (msg : RawFrame) (e : PyErr)
    (h : on_can_message_body codec st msg = .error e) (hne : e ≠ PyErr.keyError) :
    on_can_message codec st msg =
      (st, ⟨[], [], ["Error processing CAN message: " ++ errMsg e]⟩) := by
  cases e with
  | keyError => exact absurd rfl hne
  | jsonDecodeError => simp [on_can_message, h]
  | otherError m => simp [on_can_message, h]

theorem handle_unknown_preserves_known (st : BridgeState) (msg : RawFrame) :
    (handle_unknown_message st msg).1.last_known_messages = st.last_known_messages := by
  by_cases h : dictGet st.last_unknown_messages msg.arbitration_id = some (hexlify msg.data)
  · rw [handle_unknown_unchanged st msg h]
  · rw [handle_unknown_changed st msg h]

theorem on_can_message_stable (codec : Codec) (st : BridgeState) (msg : RawFrame) :
    (on_can_message codec (on_can_message codec st msg).1 msg).1
        = (on_can_message codec st msg).1 ∧
    (on_can_message codec (on_can_message codec st msg).1 msg).2.pubs = [] := by
  rcases hres : codec.get_message_by_frame_id msg.arbitration_id with _ | m
  · have h1 : ∀ s : BridgeState, on_can_message codec s msg = handle_unknown_message s msg :=
      fun s => on_can_keyError_route codec s msg (by simp [on_can_message_body, hres])
    rw [h1, h1, handle_unknown_message_stable]
    exact ⟨rfl, rfl⟩
  · rcases hdec : codec.decode m msg.data with e | decoded
    · cases e with
      | keyError =>
          have h1 : ∀ s : BridgeState, on_can_message codec s msg = handle_unknown_message s msg :=
            fun s => on_can_keyError_route codec s msg (by simp [on_can_message_body, hres, hdec])
          rw [h1, h1, handle_unknown_message_stable]
          exact ⟨rfl, rfl⟩
      | jsonDecodeError =>
          have h1 : ∀ s : BridgeState, on_can_message codec s msg =
              (s, ⟨[], [], ["Error processing CAN message: " ++ errMsg .jsonDecodeError]⟩) :=
            fun s => on_can_error_logged codec s msg _ (by simp [on_can_message_body, hres, hdec])
              (by simp)
          rw [h1, h1]
          exact ⟨rfl, rfl⟩
      | otherError em =>
          have h1 : ∀ s : BridgeState, on_can_message codec s msg =
              (s, ⟨[], [], ["Error processing CAN message: " ++ errMsg (.otherError em)]⟩) :=
            fun s => on_can_error_logged codec s msg _ (by simp [on_can_message_body, hres, hdec])
              (by simp)
          rw [h1, h1]
          exact ⟨rfl, rfl⟩
    · by_cases hget : dictGet st.last_known_messages m.name = some decoded
      · rw [on_can_known_unchanged codec st msg m decoded hres hdec hget,
            on_can_known_unchanged codec st msg m decoded hres hdec hget]
        exact ⟨rfl, rfl⟩
      · rcases hdump : json_dumps (convert_named_signal_values decoded) with e | payload
        · have hb : ∀ s : BridgeState, s.last_known_messages = st.last_known_messages →
              on_can_message_body codec s msg = .error e := by
            intro s hs
            rcases hg : dictGet st.last_known_messages m.name with _ | last
            · simp [on_can_message_body, hres, hdec, hs, hg, hdump]
            · have hne : decoded ≠ last := fun he => hget (by rw [hg, he])
              simp [on_can_message_body, hres, hdec, hs, hg, hne, hdump]
          cases e with
          | keyError =>
              have h1 := on_can_keyError_route codec st msg (hb st rfl)
              have h2 := on_can_keyError_route codec (handle_unknown_message st msg).1 msg
                (hb _ (handle_unknown_preserves_known st msg))
              rw [h1, h2, handle_unknown_message_stable]
              exact ⟨rfl, rfl⟩
          | jsonDecodeError =>
              have h1 := on_can_error_logged codec st msg _ (hb st rfl) (by simp)
              rw [h1]
              have h2 := on_can_error_logged codec st msg _ (hb st rfl) (by simp)
              rw [h2]
              exact ⟨rfl, rfl⟩
          | otherError em =>
              have h1 := on_can_error_logged codec st msg _ (hb st rfl) (by simp)
              rw [h1]
              have h2 := on_can_error_logged codec st msg _ (hb st rfl) (by simp)
              rw [h2]
              exact ⟨rfl, rfl⟩
        · rw [on_can_known_changed codec st msg m decoded payload hres hdec hget hdump]
          rw [on_can_known_unchanged codec _ msg m decoded hres hdec
            (by simp [dictGet_dictSet_self])]
          exact ⟨rfl, rfl⟩

theorem processFrames_replicate_post (codec : Codec) (st : BridgeState) (msg : RawFrame) :
    ∀ k, (processFrames codec (on_can_message codec st msg).1 (List.replicate k msg)).1
            = (on_can_message codec st msg).1 ∧
         (processFrames codec (on_can_message codec st msg).1 (List.replicate k msg)).2.pubs
            = [] := by
  intro k
  induction k with
  | zero => exact ⟨rfl, rfl⟩
  | succ k ih =>
      have hst := on_can_message_stable codec st msg
      simp only [List.replicate_succ, processFrames]
      rw [hst.1]
      refine ⟨ih.1, ?_⟩
      simp [Effects.app, hst.2, ih.2]

theorem processRepeated_eq_single (codec : Codec) (st : BridgeState) (msg : RawFrame)
    (n : Nat) (hn : 1 ≤ n) :
    (processRepeated codec st msg n).1 = (on_can_message codec st msg).1 ∧
    (processRepeated codec st msg n).2.pubs = (on_can_message codec st msg).2.pubs := by
  obtain ⟨k, rfl⟩ : ∃ k, n = k + 1 := ⟨n - 1, by omega⟩
  have post := processFrames_replicate_post codec st msg k
  simp only [processRepeated, List.replicate_succ, processFrames]
  exact ⟨post.1, by simp [Effects.app, post.2]⟩

theorem on_can_stored_eq (codec : Codec) (st : BridgeState) (msg : RawFrame)
    (h : frameStored codec st msg = true) :
    on_can_message codec st msg = (st, emptyEffects) := by
  rcases hres : codec.get_message_by_frame_id msg.arbitration_id with _ | m
  · have hd : dictGet st.last_unknown_messages msg.arbitration_id = some (hexlify msg.data) := by
      simpa [frameStored, hres] using h
    rw [on_can_keyError_route codec st msg (by simp [on_can_message_body, hres])]
    exact handle_unknown_unchanged st msg hd
  · rcases hdec : codec.decode m msg.data with e | decoded
    · cases e with
      | keyError =>
          have hd : dictGet st.last_unknown_messages msg.arbitration_id
              = some (hexlify msg.data) := by
            simpa [frameStored, hres, hdec] using h
          rw [on_can_keyError_route codec st msg (by simp [on_can_message_body, hres, hdec])]
          exact handle_unknown_unchanged st msg hd
      | jsonDecodeError => simp [frameStored, hres, hdec] at h
      | otherError em => simp [frameStored, hres, hdec] at h
    · have hd : dictGet st.last_known_messages m.name = some decoded := by
        simpa [frameStored, hres, hdec] using h
      exact on_can_known_unchanged codec st msg m decoded hres hdec hd

theorem on_can_not_stored (codec : Codec) (st : BridgeState) (msg : RawFrame) (t : String)
    (ht : frameTopic codec msg = some t) (hs : frameStored codec st msg = false) :
    ∃ payload st1, on_can_message codec st msg = (st1, ⟨[⟨t, some payload, true⟩], [], []⟩)
      ∧ frameStored codec st1 msg = true := by
  rcases hres : codec.get_message_by_frame_id msg.arbitration_id with _ | m
  · have hT : t = "can/received/Unknown_" ++ toString msg.arbitration_id := by
      have := ht
      simp [frameTopic, hres] at this
      exact this.symm
    subst hT
    have hd : dictGet st.last_unknown_messages msg.arbitration_id ≠ some (hexlify msg.data) := by
      simpa [frameStored, hres] using hs
    rw [on_can_keyError_route codec st msg (by simp [on_can_message_body, hres]),
      handle_unknown_changed st msg hd]
    exact ⟨envelopeJson msg, _, rfl, by simp [frameStored, hres, dictGet_dictSet_self]⟩
  · rcases hdec : codec.decode m msg.data with e | decoded
    · cases e with
      | keyError =>
          have hT : t = "can/received/Unknown_" ++ toString msg.arbitration_id := by
            have := ht
            simp [frameTopic, hres, hdec] at this
            exact this.symm
          subst hT
          have hd : dictGet st.last_unknown_messages msg.arbitration_id
              ≠ some (hexlify msg.data) := by
            simpa [frameStored, hres, hdec] using hs
          rw [on_can_keyError_route codec st msg (by simp [on_can_message_body, hres, hdec]),
            handle_unknown_changed st msg hd]
          exact ⟨envelopeJson msg, _, rfl, by simp [frameStored, hres, hdec, dictGet_dictSet_self]⟩
      | jsonDecodeError => simp [frameTopic, hres, hdec] at ht
      | otherError em => simp [frameTopic, hres, hdec] at ht
    · have hT : t = "can/received/" ++ m.name := by
        have := ht
        simp [frameTopic, hres, hdec] at this
        exact this.symm
      subst hT
      have hd : dictGet st.last_known_messages m.name ≠ some decoded := by
        simpa [frameStored, hres, hdec] using hs
      obtain ⟨payload, hdump⟩ := json_dumps_convert_ok decoded
      rw [on_can_known_changed codec st msg m decoded payload hres hdec hd hdump]
      exact ⟨payload, _, rfl, by simp [frameStored, hres, hdec, dictGet_dictSet_self]⟩

theorem processRepeated_fixed (codec : Codec) (s : BridgeState) (msg : RawFrame)
    (h : on_can_message codec s msg = (s, emptyEffects)) :
    ∀ k, processRepeated codec s msg k = (s, emptyEffects) := by
  intro k
  induction k with
  | zero => rfl
  | succ k ih =>
      simp only [processRepeated, List.replicate_succ, processFrames] at ih ⊢
      rw [h]
      simp only [ih]
      simp [Effects.app, emptyEffects]

theorem frameFresh_not_stored (codec : Codec) (st : BridgeState) (msg : RawFrame)
    (h : frameFresh codec st msg = true) : frameStored codec st msg = false := by
  rcases hres : codec.get_message_by_frame_id msg.arbitration_id with _ | m
  · have : dictGet st.last_unknown_messages msg.arbitration_id = none := by
      simpa [frameFresh, hres] using h
    simp [frameStored, hres, this]
  · rcases hdec : codec.decode m msg.data with e | decoded
    · cases e with
      | keyError =>
          have : dictGet st.last_unknown_messages msg.arbitration_id = none := by
            simpa [frameFresh, hres, hdec] using h
          simp [frameStored, hres, hdec, this]
      | jsonDecodeError => simp [frameStored, hres, hdec]
      | otherError em => simp [frameStored, hres, hdec]
    · have : dictGet st.last_known_messages m.name = none := by
        simpa [frameFresh, hres, hdec] using h
      simp [frameStored, hres, hdec, this]

/-- Claim C1: deduplication guarantee of the inbound bridge.  For every codec,
state, frame and `n ≥ 1`: delivering the frame `n` times in sequence yields
exactly the state and the publishes of delivering it once (so repetitions
beyond the first add no publish); when the store already holds the frame's
content under its key, even the single delivery publishes nothing and leaves
the state untouched; and when it does not, the `n` deliveries publish exactly
one retained message on the frame's topic. -/
theorem c1_idempotent_republish (codec : Codec) (st : BridgeState) (msg : RawFrame)
    (n : Nat) (hn : 1 ≤ n) :
    ((processRepeated codec st msg n).1 = (on_can_message codec st msg).1 ∧
     (processRepeated codec st msg n).2.pubs = (on_can_message codec st msg).2.pubs) ∧
    (frameStored codec st msg = true → on_can_message codec st msg = (st, emptyEffects)) ∧
    (∀ t, frameTopic codec msg = some t → frameStored codec st msg = false →
       ∃ payload, (processRepeated codec st msg n).2.pubs
          = [⟨t, some payload, true⟩]) := by
  have hrep := processRepeated_eq_single codec st msg n hn
  refine ⟨hrep, fun h => on_can_stored_eq codec st msg h, ?_⟩
  intro t ht hs
  obtain ⟨payload, st1, heq, _⟩ := on_can_not_stored codec st msg t ht hs
  exact ⟨payload, by rw [hrep.2, heq]⟩

/-- Witness for C1 at a concrete input: the `Speed` codec, the empty state,
frame id 0x100 with data `[50]`, delivered three times. -/
theorem c1_idempotent_republish_witness :
    1 ≤ 3 ∧
    (((processRepeated speedCodec stEmpty ⟨256, [50]⟩ 3).1
          = (on_can_message speedCodec stEmpty ⟨256, [50]⟩).1 ∧
      (processRepeated speedCodec stEmpty ⟨256, [50]⟩ 3).2.pubs
          = (on_can_message speedCodec stEmpty ⟨256, [50]⟩).2.pubs) ∧
     (frameStored speedCodec stEmpty ⟨256, [50]⟩ = true →
        on_can_message speedCodec stEmpty ⟨256, [50]⟩ = (stEmpty, emptyEffects)) ∧
     (∀ t, frameTopic speedCodec ⟨256, [50]⟩ = some t →
        frameStored speedCodec stEmpty ⟨256, [50]⟩ = false →
        ∃ payload, (processRepeated speedCodec stEmpty ⟨256, [50]⟩ 3).2.pubs
            = [⟨t, some payload, true⟩])) :=
  ⟨by decide, c1_idempotent_republish speedCodec stEmpty ⟨256, [50]⟩ 3 (by decide)⟩

/-- Claim C2: first-observation property.  For every frame that carries a key
(known name or unknown id) with no prior entry in the store, one delivery
records the content under the key and publishes exactly one retained message
on the key's topic; every further delivery of the identical frame leaves the
state untouched and publishes nothing. -/
theorem c2_first_observation (codec : Codec) (st : BridgeState) (msg : RawFrame) (t : String)
    (ht : frameTopic codec msg = some t) (hfresh : frameFresh codec st msg = true) :
    ∃ payload st1,
      on_can_message codec st msg = (st1, ⟨[⟨t, some payload, true⟩], [], []⟩) ∧
      frameStored codec st1 msg = true ∧
      ∀ k, processRepeated codec st1 msg k = (st1, emptyEffects) := by
  obtain ⟨payload, st1, heq, hstored⟩ :=
    on_can_not_stored codec st msg t ht (frameFresh_not_stored codec st msg hfresh)
  refine ⟨payload, st1, heq, hstored, ?_⟩
  exact processRepeated_fixed codec st1 msg (on_can_stored_eq codec st1 msg hstored)

/-- Witness for C2 at a concrete input: first observation of `Speed` with
data `[50]` from the empty state. -/
theorem c2_first_observation_witness :
    frameTopic speedCodec ⟨256, [50]⟩ = some "can/received/Speed" ∧
    frameFresh speedCodec stEmpty ⟨256, [50]⟩ = true ∧
    (∃ payload st1,
      on_can_message speedCodec stEmpty ⟨256, [50]⟩
          = (st1, ⟨[⟨"can/received/Speed", some payload, true⟩], [], []⟩) ∧
      frameStored speedCodec st1 ⟨256, [50]⟩ = true ∧
      ∀ k, processRepeated speedCodec st1 ⟨256, [50]⟩ k = (st1, emptyEffects)) :=
  ⟨by decide, by decide,
   c2_first_observation speedCodec stEmpty ⟨256, [50]⟩ "can/received/Speed"
     (by decide) (by decide)⟩

/-- Claim C3: unknown-frame fallback.  A frame whose id the codec cannot
resolve, observed on a fresh key, is published retained on
`can/received/Unknown_<id>` with the JSON payload
`{"message_id": <id>, "data": "<hex>"}` (`envelopeJson`); re-sending the
identical frame publishes nothing; sending the same id with different bytes
publishes exactly one further retained message carrying the new hex string.
`st1` and `st2` name the states after the first and third delivery. -/
theorem c3_unknown_fallback (codec : Codec) (st : BridgeState) (msg : RawFrame)
    (data2 : List Nat)
    (hres : codec.get_message_by_frame_id msg.arbitration_id = none)
    (hfresh : dictGet st.last_unknown_messages msg.arbitration_id = none)
    (hv1 : validBytes msg.data) (hv2 : validBytes data2) (hne : data2 ≠ msg.data) :
    on_can_message codec st msg =
      ((on_can_message codec st msg).1,
       ⟨[⟨"can/received/Unknown_" ++ toString msg.arbitration_id,
          some (envelopeJson msg), true⟩], [], []⟩) ∧
    on_can_message codec (on_can_message codec st msg).1 msg =
      ((on_can_message codec st msg).1, emptyEffects) ∧
    on_can_message codec (on_can_message codec st msg).1 ⟨msg.arbitration_id, data2⟩ =
      ((on_can_message codec (on_can_message codec st msg).1
          ⟨msg.arbitration_id, data2⟩).1,
       ⟨[⟨"can/received/Unknown_" ++ toString msg.arbitration_id,
          some (envelopeJson ⟨msg.arbitration_id, data2⟩), true⟩], [], []⟩) := by
  have e1 : on_can_message codec st msg = _ :=
    (on_can_keyError_route codec st msg (by simp [on_can_message_body, hres])).trans
      (handle_unknown_changed st msg (by simp [hfresh]))
  rw [e1]
  refine ⟨rfl, ?_, ?_⟩
  · rw [on_can_keyError_route codec _ msg (by simp [on_can_message_body, hres])]
    exact handle_unknown_unchanged _ msg (by simp [dictGet_dictSet_self])
  · have hhex : hexlify msg.data ≠ hexlify data2 :=
      fun h => hne (hexlify_inj hv2 hv1 h.symm)
    have hd : dictGet
        (dictSet st.last_unknown_messages msg.arbitration_id (hexlify msg.data))
        msg.arbitration_id ≠ some (hexlify data2) := by
      rw [dictGet_dictSet_self]
      simpa using hhex
    rw [on_can_keyError_route codec _ ⟨msg.arbitration_id, data2⟩
        (by simp [on_can_message_body, hres]),
      handle_unknown_changed _ ⟨msg.arbitration_id, data2⟩ hd]

/-- Witness for C3 at a concrete input: unresolvable id 5, bytes `[171]`
then `[12]`. -/
theorem c3_unknown_fallback_witness :
    emptyCodec.get_message_by_frame_id (5 : Int) = none ∧
    dictGet stEmpty.last_unknown_messages (5 : Int) = none ∧
    validBytes [171] ∧ validBytes [12] ∧ [12] ≠ [171] ∧
    (on_can_message emptyCodec stEmpty ⟨5, [171]⟩ =
      ((on_can_message emptyCodec stEmpty ⟨5, [171]⟩).1,
       ⟨[⟨"can/received/Unknown_" ++ toString (5 : Int),
          some (envelopeJson ⟨5, [171]⟩), true⟩], [], []⟩) ∧
     on_can_message emptyCodec (on_can_message emptyCodec stEmpty ⟨5, [171]⟩).1 ⟨5, [171]⟩ =
      ((on_can_message emptyCodec stEmpty ⟨5, [171]⟩).1, emptyEffects) ∧
     on_can_message emptyCodec (on_can_message emptyCodec stEmpty ⟨5, [171]⟩).1 ⟨5, [12]⟩ =
      ((on_can_message emptyCodec (on_can_message emptyCodec stEmpty ⟨5, [171]⟩).1
          ⟨5, [12]⟩).1,
       ⟨[⟨"can/received/Unknown_" ++ toString (5 : Int),
          some (envelopeJson ⟨5, [12]⟩), true⟩], [], []⟩)) :=
  ⟨rfl, rfl, by decide, by decide, by decide,
   c3_unknown_fallback emptyCodec stEmpty ⟨5, [171]⟩ [12] rfl rfl
     (by decide) (by decide) (by decide)⟩

/-- Claim C4: comparison/serialization asymmetry for known messages.  When
the codec resolves and decodes a frame, the publish decision is precisely the
structural comparison of the *un-normalized* decode result against the stored
*un-normalized* entry, the entry written back is the un-normalized result,
and the payload published is `json_dumps` of the *normalized*
(`convert_named_signal_values`) form — the normalized form never enters the
comparison and the un-normalized form is never serialized (serializing it
would in fact raise a `TypeError` whenever it contains a
`NamedSignalValue`). -/
theorem c4_comparison_serialization_asymmetry (codec : Codec) (st : BridgeState)
    (msg : RawFrame) (m : MessageDef) (decoded : PyValue)
    (hres : codec.get_message_by_frame_id msg.arbitration_id = some m)
    (hdec : codec.decode m msg.data = .ok decoded) :
    ∃ payload,
      json_dumps (convert_named_signal_values decoded) = .ok payload ∧
      (dictGet st.last_known_messages m.name ≠ some decoded →
        on_can_message codec st msg =
          ({ st with
              last_known_messages := dictSet st.last_known_messages m.name decoded,
              published_topics := setAdd st.published_topics ("can/received/" ++ m.name) },
           ⟨[⟨"can/received/" ++ m.name, some payload, true⟩], [], []⟩)) ∧
      (dictGet st.last_known_messages m.name = some decoded →
        on_can_message codec st msg = (st, emptyEffects)) := by
  obtain ⟨payload, hdump⟩ := json_dumps_convert_ok decoded
  exact ⟨payload, hdump,
    fun hne => on_can_known_changed codec st msg m decoded payload hres hdec hne hdump,
    fun heq => on_can_known_unchanged codec st msg m decoded hres hdec heq⟩

/-- Witness for C4 at a concrete input: the `Gear` codec decoding frame id
0x200, data `[2]`, to a dict holding the `NamedSignalValue` `REVERSE`. -/
theorem c4_comparison_serialization_asymmetry_witness :
    gearCodec.get_message_by_frame_id (512 : Int) = some gearDef ∧
    gearCodec.decode gearDef [2] = .ok (.dict [("gear", .named "REVERSE" 2)]) ∧
    (∃ payload,
      json_dumps (convert_named_signal_values (.dict [("gear", .named "REVERSE" 2)]))
          = .ok payload ∧
      (dictGet stEmpty.last_known_messages gearDef.name
            ≠ some (.dict [("gear", .named "REVERSE" 2)]) →
        on_can_message gearCodec stEmpty ⟨512, [2]⟩ =
          ({ stEmpty with
              last_known_messages :=
                dictSet stEmpty.last_known_messages gearDef.name
                  (.dict [("gear", .named "REVERSE" 2)]),
              published_topics :=
                setAdd stEmpty.published_topics ("can/received/" ++ gearDef.name) },
           ⟨[⟨"can/received/" ++ gearDef.name, some payload, true⟩], [], []⟩)) ∧
      (dictGet stEmpty.last_known_messages gearDef.name
            = some (.dict [("gear", .named "REVERSE" 2)]) →
        on_can_message gearCodec stEmpty ⟨512, [2]⟩ = (stEmpty, emptyEffects))) :=
  ⟨rfl, rfl,
   c4_comparison_serialization_asymmetry gearCodec stEmpty ⟨512, [2]⟩ gearDef
     (.dict [("gear", .named "REVERSE" 2)]) rfl rfl⟩

theorem clear_filter_zero (fails : String → Bool) :
    ∀ (topics : List String) (t : String), t ∉ topics →
      ((clear_retained_messages fails topics).filter
        (fun a => a.1.topic = t)).length = 0 := by
  intro topics
  induction topics with
  | nil => intro t _; rfl
  | cons hd tl ih =>
      intro t hmem
      have h1 : hd ≠ t := fun he => hmem (by simp [he])
      have h2 : t ∉ tl := fun hm => hmem (by simp [hm])
      simp only [clear_retained_messages, List.map_cons, List.filter_cons]
      rw [if_neg (by simpa using h1)]
      simpa [clear_retained_messages] using ih t h2

theorem clear_filter_one (fails : String → Bool) :
    ∀ (topics : List String), topics.Nodup → ∀ t ∈ topics,
      ((clear_retained_messages fails topics).filter
        (fun a => a.1.topic = t)).length = 1 := by
  intro topics
  induction topics with
  | nil => intro _ t ht; simp at ht
  | cons hd tl ih =>
      intro hnd t ht
      have hhd : hd ∉ tl := (List.nodup_cons.mp hnd).1
      have htl : tl.Nodup := (List.nodup_cons.mp hnd).2
      rcases List.mem_cons.mp ht with he | hm
      · subst he
        simp only [clear_retained_messages, List.map_cons, List.filter_cons]
        rw [if_pos (by simp)]
        have := clear_filter_zero fails tl t hhd
        simp only [clear_retained_messages] at this
        simp [this]
      · have hne : hd ≠ t := fun he => hhd (he ▸ hm)
        simp only [clear_retained_messages, List.map_cons, List.filter_cons]
        rw [if_neg (by simpa using hne)]
        have := ih htl t hm
        simpa [clear_retained_messages] using this

/-- Claim C5: drain completeness.  With `N` distinct topics registered, the
drain issues exactly `N` clearing publishes (empty payload, retained), one
per registered topic and nothing else, and the sequence of publishes it
attempts is the same for every pattern of broker-side publish failures. -/
theorem c5_drain_completeness (fails : String → Bool) (topics : List String)
    (hnd : topics.Nodup) :
    (clear_retained_messages fails topics).length = topics.length ∧
    (∀ t ∈ topics,
      ((clear_retained_messages fails topics).filter
        (fun a => a.1.topic = t)).length = 1) ∧
    (∀ a ∈ clear_retained_messages fails topics,
      a.1.payload = none ∧ a.1.retain = true ∧ a.1.topic ∈ topics) ∧
    (∀ fails2 : String → Bool,
      (clear_retained_messages fails2 topics).map Prod.fst
        = (clear_retained_messages fails topics).map Prod.fst) := by
  refine ⟨by simp [clear_retained_messages], clear_filter_one fails topics hnd, ?_, ?_⟩
  · intro a ha
    simp only [clear_retained_messages, List.mem_map] at ha
    obtain ⟨t, htm, rfl⟩ := ha
    exact ⟨rfl, rfl, htm⟩
  · intro fails2
    simp [clear_retained_messages, List.map_map, Function.comp]

/-- Witness for C5 at a concrete input: two registered topics, the first
publish failing. -/
theorem c5_drain_completeness_witness :
    ["can/received/Speed", "can/received/Unknown_5"].Nodup ∧
    ((clear_retained_messages (fun t => t = "can/received/Speed")
        ["can/received/Speed", "can/received/Unknown_5"]).length
      = (["can/received/Speed", "can/received/Unknown_5"] : List String).length ∧
     (∀ t ∈ ["can/received/Speed", "can/received/Unknown_5"],
       ((clear_retained_messages (fun t => t = "can/received/Speed")
           ["can/received/Speed", "can/received/Unknown_5"]).filter
         (fun a => a.1.topic = t)).length = 1) ∧
     (∀ a ∈ clear_retained_messages (fun t => t = "can/received/Speed")
         ["can/received/Speed", "can/received/Unknown_5"],
       a.1.payload = none ∧ a.1.retain = true ∧
         a.1.topic ∈ ["can/received/Speed", "can/received/Unknown_5"]) ∧
     (∀ fails2 : String → Bool,
       (clear_retained_messages fails2
           ["can/received/Speed", "can/received/Unknown_5"]).map Prod.fst
         = (clear_retained_messages (fun t => t = "can/received/Speed")
             ["can/received/Speed", "can/received/Unknown_5"]).map Prod.fst)) :=
  ⟨by decide,
   c5_drain_completeness (fun t => t = "can/received/Speed")
     ["can/received/Speed", "can/received/Unknown_5"] (by decide)⟩


/-- Counterexample to claim C6 as stated: a pub/sub delivery whose payload
bytes `[255]` are not valid UTF-8 raises `UnicodeDecodeError` at
`msg.payload.decode()` (main.py line 199), which sits *before* the `try`
block, so the exception propagates out of the message handler instead of
being caught at the boundary of the unit of work. -/
theorem c6_counterexample :
    on_mqtt_message emptyCodec noJson stEmpty "can/send/Speed" [255]
      = .error (.otherError "UnicodeDecodeError: invalid byte sequence") := rfl

/-- Claim C6 (amended): per-item error containment holds for everything the
`try` blocks cover — the inbound frame handler catches every exception (an
uncontained error is impossible: any non-`KeyError` body failure yields a
logged, state-preserving normal return), and the outbound message handler
returns normally for every delivery whose payload bytes decode as UTF-8 —
but the payload/topic decoding of main.py lines 198-199 runs before the
`try`, so an undecodable payload propagates out of the message handler. -/
theorem c6_amended_error_containment (codec : Codec) (jsonLoads : String → Option JsonVal)
    (st : BridgeState) (topic : String) (payload : List Nat) (s : String)
    (hdec : utf8Decode payload = .ok s) :
    (∃ eff, on_mqtt_message codec jsonLoads st topic payload = .ok (st, eff)) ∧
    (∀ (codec2 : Codec) (st2 : BridgeState) (msg : RawFrame) (e : PyErr),
       on_can_message_body codec2 st2 msg = .error e → e ≠ PyErr.keyError →
       on_can_message codec2 st2 msg
         = (st2, ⟨[], [], ["Error processing CAN message: " ++ errMsg e]⟩)) := by
  constructor
  · exact ⟨_, by rw [on_mqtt_message, hdec]⟩
  · exact fun codec2 st2 msg e hb hne => on_can_error_logged codec2 st2 msg e hb hne

/-- Witness for the amended C6 at a concrete input: payload `"hi"`
(`[104, 105]`), and a codec whose decode fails with a `DecodeError`. -/
theorem c6_amended_error_containment_witness :
    utf8Decode [104, 105] = .ok "hi" ∧
    ((∃ eff, on_mqtt_message emptyCodec noJson stEmpty "can/send/Speed" [104, 105]
        = .ok (stEmpty, eff)) ∧
     (∀ (codec2 : Codec) (st2 : BridgeState) (msg : RawFrame) (e : PyErr),
       on_can_message_body codec2 st2 msg = .error e → e ≠ PyErr.keyError →
       on_can_message codec2 st2 msg
         = (st2, ⟨[], [], ["Error processing CAN message: " ++ errMsg e]⟩))) :=
  ⟨rfl,
   c6_amended_error_containment emptyCodec noJson stEmpty "can/send/Speed" [104, 105]
     "hi" rfl⟩

/-- Claim C7: malformed-JSON drop on the outbound path.  For every delivery
whose payload decodes as UTF-8 but is not valid JSON, the handler returns
normally with the shared state unchanged, sends no frame on the bus,
publishes nothing, logs the failure (as a JSON parsing error when the topic
resolves to a known message, or inside the unknown-message handler
otherwise), and the bridge goes on to process the remaining deliveries
exactly as it would have without this one. -/
theorem c7_malformed_json_drop (codec : Codec) (jsonLoads : String → Option JsonVal)
    (st : BridgeState) (topic : String) (payload : List Nat) (s : String)
    (hu : utf8Decode payload = .ok s) (hj : jsonLoads s = none) :
    ∃ eff, on_mqtt_message codec jsonLoads st topic payload = .ok (st, eff) ∧
      eff.sends = [] ∧ eff.pubs = [] ∧
      (("JSON parsing error: " ++ errMsg .jsonDecodeError) ∈ eff.logs ∨
       ("Error handling unknown MQTT message: " ++ errMsg .jsonDecodeError) ∈ eff.logs) ∧
      ∀ rest, processDeliveries codec jsonLoads st ((topic, payload) :: rest)
        = ((processDeliveries codec jsonLoads st rest).1,
           eff.app (processDeliveries codec jsonLoads st rest).2) := by
  rcases hname : codec.get_message_by_name (lastSegment topic) with _ | m
  · have heq : on_mqtt_message codec jsonLoads st topic payload
        = .ok (st, ⟨[], [],
            ["Received Topic: " ++ topic, "Received Payload: " ++ s,
             "Error handling unknown MQTT message: " ++ errMsg .jsonDecodeError]⟩) := by
      simp [on_mqtt_message, hu, on_mqtt_message_body, hname,
        handle_unknown_mqtt_message, handle_unknown_mqtt_body, hj]
    refine ⟨_, heq, rfl, rfl, by simp, ?_⟩
    intro rest
    simp only [processDeliveries, heq]
  · have heq : on_mqtt_message codec jsonLoads st topic payload
        = .ok (st, ⟨[], [],
            ["Received Topic: " ++ topic, "Received Payload: " ++ s,
             "JSON parsing error: " ++ errMsg .jsonDecodeError,
             "Received Payload: " ++ s]⟩) := by
      simp [on_mqtt_message, hu, on_mqtt_message_body, hname, hj]
    refine ⟨_, heq, rfl, rfl, by simp, ?_⟩
    intro rest
    simp only [processDeliveries, heq]

/-- Witness for C7 at a concrete input: payload `"n"` (`[110]`), which no
parse accepts. -/
theorem c7_malformed_json_drop_witness :
    utf8Decode [110] = .ok "n" ∧ noJson "n" = none ∧
    (∃ eff, on_mqtt_message emptyCodec noJson stEmpty "can/send/Speed" [110]
        = .ok (stEmpty, eff) ∧
      eff.sends = [] ∧ eff.pubs = [] ∧
      (("JSON parsing error: " ++ errMsg .jsonDecodeError) ∈ eff.logs ∨
       ("Error handling unknown MQTT message: " ++ errMsg .jsonDecodeError) ∈ eff.logs) ∧
      ∀ rest, processDeliveries emptyCodec noJson stEmpty (("can/send/Speed", [110]) :: rest)
        = ((processDeliveries emptyCodec noJson stEmpty rest).1,
           eff.app (processDeliveries emptyCodec noJson stEmpty rest).2)) :=
  ⟨rfl, rfl,
   c7_malformed_json_drop emptyCodec noJson stEmpty "can/send/Speed" [110] "n" rfl rfl⟩

theorem handle_unknown_mqtt_body_ok_iff (jsonLoads : String → Option JsonVal)
    (s : String) (j : JsonVal) (fr : RawFrame) (hj : jsonLoads s = some j) :
    handle_unknown_mqtt_body jsonLoads s = .ok (some fr) ↔
      ∃ mid d, jsonGetField j "message_id" = some mid ∧ jsonGetField j "data" = some d ∧
        pyUnhexlify d = .ok fr.data ∧ pyInt mid = .ok fr.arbitration_id := by
  rcases j with _ | b | n | s' | items | fields
  · simp [handle_unknown_mqtt_body, hj, dictGetJson, jsonGetField]
  · simp [handle_unknown_mqtt_body, hj, dictGetJson, jsonGetField]
  · simp [handle_unknown_mqtt_body, hj, dictGetJson, jsonGetField]
  · simp [handle_unknown_mqtt_body, hj, dictGetJson, jsonGetField]
  · simp [handle_unknown_mqtt_body, hj, dictGetJson, jsonGetField]
  · rcases hmid : jsonGetField (.obj fields) "message_id" with _ | mid
    · simp [handle_unknown_mqtt_body, hj, dictGetJson, hmid]
    · rcases hdata : jsonGetField (.obj fields) "data" with _ | d
      · simp [handle_unknown_mqtt_body, hj, dictGetJson, hmid, hdata]
      · rcases hhex : pyUnhexlify d with e | bs
        · simp [handle_unknown_mqtt_body, hj, dictGetJson, hmid, hdata, hhex]
        · rcases hint : pyInt mid with e | n
          · simp [handle_unknown_mqtt_body, hj, dictGetJson, hmid, hdata, hhex, hint]
          · rcases fr with ⟨fid, fdata⟩
            simp only [handle_unknown_mqtt_body, hj, dictGetJson, hmid, hdata, hhex, hint]
            constructor
            · intro h
              obtain ⟨h1, h2⟩ := by
                have := h
                simp only [Except.ok.injEq, Option.some.injEq, RawFrame.mk.injEq] at this
                exact this
              exact ⟨mid, d, rfl, rfl, by simp [hhex, h2], by simp [hint, h1]⟩
            · rintro ⟨mid2, d2, hm2, hd2, hx2, hi2⟩
              have hmm : mid2 = mid := by simpa using hm2.symm
              have hdd : d2 = d := by simpa using hd2.symm
              subst hmm; subst hdd
              rw [hhex] at hx2
              rw [hint] at hi2
              simp only [Except.ok.injEq] at hx2 hi2
              simp [hx2, hi2]

/-- Counterexample to claim C8 as stated: the payload
`{"message_id": "abc", "data": "0a"}` contains both a `message_id` field and
a `data` field holding a valid hex string, yet no frame is sent — `int("abc")`
raises `ValueError` at the frame construction and the delivery is dropped
with a log. -/
theorem c8_counterexample :
    jsonHasField (.obj [("message_id", .str "abc"), ("data", .str "0a")]) "message_id"
        = true ∧
    fieldValidHex (.obj [("message_id", .str "abc"), ("data", .str "0a")]) "data"
        = true ∧
    (handle_unknown_mqtt_message badIdJson "payload").sends = [] ∧
    ("Error handling unknown MQTT message: ValueError: invalid literal for int()")
        ∈ (handle_unknown_mqtt_message badIdJson "payload").logs := by
  exact ⟨rfl, rfl, by decide, by decide⟩

/-- Claim C8 (amended): outbound unknown-command path.  For every delivery
whose payload parses to JSON value `j`, a bus frame is sent if and only if
`j` yields (via Python dict `.get`, which treats a JSON `null` as absent) a
`message_id` value that `int()` accepts and a `data` value that is a string
of valid hex; the frame sent carries exactly `int(message_id)` and the
unhexlified bytes; in every other case nothing is sent and the delivery is
logged. -/
theorem c8_amended_unknown_command (jsonLoads : String → Option JsonVal)
    (s : String) (j : JsonVal) (hj : jsonLoads s = some j) :
    (∀ fr : RawFrame, (handle_unknown_mqtt_message jsonLoads s).sends = [fr] ↔
       (∃ mid d, jsonGetField j "message_id" = some mid ∧
         jsonGetField j "data" = some d ∧
         pyUnhexlify d = .ok fr.data ∧ pyInt mid = .ok fr.arbitration_id)) ∧
    ((handle_unknown_mqtt_message jsonLoads s).sends = [] →
       (handle_unknown_mqtt_message jsonLoads s).logs ≠ []) ∧
    (handle_unknown_mqtt_message jsonLoads s).pubs = [] := by
  rcases hb : handle_unknown_mqtt_body jsonLoads s with e | o
  · refine ⟨?_, ?_, by simp [handle_unknown_mqtt_message, hb]⟩
    · intro fr
      constructor
      · intro h; simp [handle_unknown_mqtt_message, hb] at h
      · intro hcond
        have hok := (handle_unknown_mqtt_body_ok_iff jsonLoads s j fr hj).mpr hcond
        rw [hb] at hok
        exact absurd hok (by simp)
    · intro _; simp [handle_unknown_mqtt_message, hb]
  · rcases o with _ | frame
    · refine ⟨?_, ?_, by simp [handle_unknown_mqtt_message, hb]⟩
      · intro fr
        constructor
        · intro h; simp [handle_unknown_mqtt_message, hb] at h
        · intro hcond
          have hok := (handle_unknown_mqtt_body_ok_iff jsonLoads s j fr hj).mpr hcond
          rw [hb] at hok
          exact absurd hok (by simp)
      · intro _; simp [handle_unknown_mqtt_message, hb]
    · refine ⟨?_, ?_, by simp [handle_unknown_mqtt_message, hb]⟩
      · intro fr
        have hiff := handle_unknown_mqtt_body_ok_iff jsonLoads s j fr hj
        rw [hb] at hiff
        constructor
        · intro h
          have hfr : frame = fr := by
            simpa [handle_unknown_mqtt_message, hb] using h
          exact hiff.mp (by rw [hfr])
        · intro hcond
          have hfr : frame = fr := by simpa using hiff.mpr hcond
          simp [handle_unknown_mqtt_message, hb, hfr]
      · intro h
        simp [handle_unknown_mqtt_message, hb] at h

/-- Witness for the amended C8 at a concrete input: the
`{"message_id": "abc", "data": "0a"}` payload fixture. -/
theorem c8_amended_unknown_command_witness :
    badIdJson "payload" = some (.obj [("message_id", .str "abc"), ("data", .str "0a")]) ∧
    ((∀ fr : RawFrame, (handle_unknown_mqtt_message badIdJson "payload").sends = [fr] ↔
       (∃ mid d,
         jsonGetField (.obj [("message_id", .str "abc"), ("data", .str "0a")])
             "message_id" = some mid ∧
         jsonGetField (.obj [("message_id", .str "abc"), ("data", .str "0a")])
             "data" = some d ∧
         pyUnhexlify d = .ok fr.data ∧ pyInt mid = .ok fr.arbitration_id)) ∧
     ((handle_unknown_mqtt_message badIdJson "payload").sends = [] →
       (handle_unknown_mqtt_message badIdJson "payload").logs ≠ []) ∧
     (handle_unknown_mqtt_message badIdJson "payload").pubs = []) :=
  ⟨rfl,
   c8_amended_unknown_command badIdJson "payload"
     (.obj [("message_id", .str "abc"), ("data", .str "0a")]) rfl⟩

/-- Per-operation equation: the read-and-test on a fresh key passes the
change test. -/
theorem unknownStep_read_fresh (st : BridgeState) (msg : RawFrame)
    (h : dictGet st.last_unknown_messages msg.arbitration_id = none) :
    unknownThreadStep st ⟨msg, 0⟩ = (st, ⟨msg, 1⟩, []) := by
  simp [unknownThreadStep, h]

theorem unknownStep_read_same (st : BridgeState) (msg : RawFrame)
    (h : dictGet st.last_unknown_messages msg.arbitration_id = some (hexlify msg.data)) :
    unknownThreadStep st ⟨msg, 0⟩ = (st, ⟨msg, 4⟩, []) := by
  simp [unknownThreadStep, h]

theorem unknownStep_publish (st : BridgeState) (msg : RawFrame) :
    unknownThreadStep st ⟨msg, 1⟩ =
      (st, ⟨msg, 2⟩,
       [⟨"can/received/Unknown_" ++ toString msg.arbitration_id,
         some (envelopeJson msg), true⟩]) := by
  simp [unknownThreadStep, envelope_dumps]

theorem unknownStep_write (st : BridgeState) (msg : RawFrame) :
    unknownThreadStep st ⟨msg, 2⟩ =
      ({ st with
          last_unknown_messages :=
            dictSet st.last_unknown_messages msg.arbitration_id (hexlify msg.data) },
       ⟨msg, 3⟩, []) := by
  simp [unknownThreadStep]

theorem unknownStep_register (st : BridgeState) (msg : RawFrame) :
    unknownThreadStep st ⟨msg, 3⟩ =
      ({ st with
          published_topics :=
            setAdd st.published_topics
              ("can/received/Unknown_" ++ toString msg.arbitration_id) },
       ⟨msg, 4⟩, []) := by
  simp [unknownThreadStep]

theorem unknownStep_done (st : BridgeState) (msg : RawFrame) :
    unknownThreadStep st ⟨msg, 4⟩ = (st, ⟨msg, 4⟩, []) := by
  simp [unknownThreadStep]

/-- Soundness of the micro-step decomposition on the notifier side: one
`handle_unknown_message` execution run to completion without the sweep
stepping reaches exactly the state and publishes of
`handle_unknown_message`. -/
theorem runDrainRace_handler_only (st : BridgeState) (msg : RawFrame) (d : DrainIter) :
    runDrainRace st ⟨msg, 0⟩ d [true, true, true, true]
      = ((handle_unknown_message st msg).1, (handle_unknown_message st msg).2.pubs) := by
  by_cases h : dictGet st.last_unknown_messages msg.arbitration_id = some (hexlify msg.data)
  · rw [handle_unknown_unchanged st msg h]
    simp [runDrainRace, unknownThreadStep, h, emptyEffects]
  · rw [handle_unknown_changed st msg h]
    rcases hget : dictGet st.last_unknown_messages msg.arbitration_id with _ | last
    · simp [runDrainRace, unknownThreadStep, hget, envelope_dumps]
    · have hne : hexlify msg.data ≠ last := fun he => h (by rw [hget, he])
      simp [runDrainRace, unknownThreadStep, hget, hne, envelope_dumps, bne_iff_ne]

/-- Soundness of the micro-step decomposition on the drain side: stepping
only the sweep, from position `pre.length` of a registry `pre ++ cur`, issues
exactly one clearing publish per remaining topic and leaves the shared state
untouched. -/
theorem runDrainRace_drain_only (t : UnknownThread) :
    ∀ (cur pre : List String) (st : BridgeState),
      st.published_topics = pre ++ cur →
      runDrainRace st t ⟨(pre ++ cur).length, pre.length, false⟩
          (List.replicate cur.length false)
        = (st, cur.map (fun tp => ⟨tp, none, true⟩)) := by
  intro cur
  induction cur with
  | nil =>
      intro pre st h
      simp [runDrainRace]
  | cons x rest ih =>
      intro pre st h
      have hlen : st.published_topics.length = (pre ++ x :: rest).length := by rw [h]
      have hget : st.published_topics[pre.length]? = some x := by
        rw [h, List.getElem?_append_right (Nat.le_refl _)]
        simp
      have hstep : drainStep st ⟨(pre ++ x :: rest).length, pre.length, false⟩
          = (⟨(pre ++ x :: rest).length, pre.length + 1, false⟩, [⟨x, none, true⟩]) := by
        simp [drainStep, hlen, hget]
      have ih2 := ih (pre ++ [x]) st (by rw [h]; simp)
      have e1 : ((pre ++ [x]) ++ rest).length = (pre ++ x :: rest).length := by simp
      have e2 : (pre ++ [x]).length = pre.length + 1 := by simp
      rw [e1, e2] at ih2
      simp only [List.length_cons, List.replicate_succ, runDrainRace, hstep, ih2,
        List.map_cons, Bool.false_eq_true, if_false, List.singleton_append]

/-- Counterexample to claim C9 as stated: a Topic Registry add *can* race
with the drain sweep, with observable effect.  Two topics are registered when
the sweep's iterator is created; the sweep clears the first; a CAN frame with
the unresolvable id 5 then arrives on the still-running notifier thread,
whose `handle_unknown_message` registers `can/received/Unknown_5`, growing
the set; the sweep's next `next()` sees the size change and raises
`RuntimeError`, so the pre-registered `can/received/Gear` never receives its
clearing publish — while the sweep run without the interleaved registration
clears both registered topics. -/
theorem c9_counterexample :
    (runDrainRace stDrain ⟨⟨5, [171]⟩, 0⟩ ⟨2, 0, false⟩
        [false, true, true, true, true, false]).2.filter (fun p => p.payload = none)
      = [⟨"can/received/Speed", none, true⟩] ∧
    "can/received/Gear" ∈ stDrain.published_topics ∧
    runDrainRace stDrain ⟨⟨5, [171]⟩, 4⟩ ⟨2, 0, false⟩ [false, false]
      = (stDrain,
         [⟨"can/received/Speed", none, true⟩, ⟨"can/received/Gear", none, true⟩]) :=
  ⟨rfl, by decide, rfl⟩

/-- Claim C9 (amended): observe-then-publish sequences for the same key never
run concurrently in this program — the single `can.Notifier` reader thread
performs all of them sequentially, and under that sequential execution an
immediate re-observation of recorded content publishes nothing — but the
Topic Registry add is not protected against the drain sweep: the notifier
thread keeps running while the main thread iterates `published_topics`, and
a registration during the sweep changes the set's size, making the sweep's
iterator raise `RuntimeError` so that even topics registered before the
drain began are left uncleared; without an interleaved registration the
sweep issues exactly the clearing publishes of `clear_retained_messages`. -/
theorem c9_registry_drain_race (st : BridgeState) (msg : RawFrame)
    (t1 t2 : String) (ts : List String)
    (htopics : st.published_topics = t1 :: t2 :: ts)
    (hfresh : dictGet st.last_unknown_messages msg.arbitration_id = none)
    (hnotmem : ("can/received/Unknown_" ++ toString msg.arbitration_id)
        ∉ st.published_topics) :
    (∀ (codec : Codec) (s : BridgeState) (m : RawFrame),
       (on_can_message codec (on_can_message codec s m).1 m).2.pubs = []) ∧
    (∀ fails : String → Bool,
       runDrainRace st ⟨msg, 4⟩ ⟨st.published_topics.length, 0, false⟩
           (List.replicate st.published_topics.length false)
         = (st, (clear_retained_messages fails st.published_topics).map Prod.fst)) ∧
    (runDrainRace st ⟨msg, 0⟩ ⟨st.published_topics.length, 0, false⟩
        [false, true, true, true, true, false]).2.filter (fun p => p.payload = none)
      = [⟨t1, none, true⟩] := by
  refine ⟨fun codec s m => (on_can_message_stable codec s m).2, ?_, ?_⟩
  · intro fails
    have hd := runDrainRace_drain_only (⟨msg, 4⟩ : UnknownThread)
      st.published_topics [] st (by simp)
    simp only [List.nil_append, List.length_nil] at hd
    rw [hd]
    simp [clear_retained_messages, List.map_map, Function.comp]
  · have hset : setAdd st.published_topics
        ("can/received/Unknown_" ++ toString msg.arbitration_id)
        = st.published_topics ++ ["can/received/Unknown_" ++ toString msg.arbitration_id] := by
      simp [setAdd, hnotmem]
    have h0 : drainStep st ⟨st.published_topics.length, 0, false⟩
        = (⟨st.published_topics.length, 1, false⟩, [⟨t1, none, true⟩]) := by
      simp [drainStep, htopics]
    have h5 : ∀ d2 : List (Int × String),
        drainStep
          { st with
              last_unknown_messages := d2,
              published_topics := st.published_topics
                ++ ["can/received/Unknown_" ++ toString msg.arbitration_id] }
          ⟨st.published_topics.length, 1, false⟩
        = (⟨st.published_topics.length, 1, true⟩, []) := by
      intro d2
      simp [drainStep]
    simp [runDrainRace, h0, h5, hset, unknownStep_read_fresh, unknownStep_publish,
      unknownStep_write, unknownStep_register, hfresh]

/-- Witness for the amended C9 at a concrete input: registry
`{can/received/Speed, can/received/Gear}` and the unresolvable frame id 5,
data `[171]`. -/
theorem c9_registry_drain_race_witness :
    stDrain.published_topics = "can/received/Speed" :: "can/received/Gear" :: [] ∧
    dictGet stDrain.last_unknown_messages (RawFrame.mk 5 [171]).arbitration_id = none ∧
    ("can/received/Unknown_" ++ toString (RawFrame.mk 5 [171]).arbitration_id)
        ∉ stDrain.published_topics ∧
    ((∀ (codec : Codec) (s : BridgeState) (m : RawFrame),
       (on_can_message codec (on_can_message codec s m).1 m).2.pubs = []) ∧
     (∀ fails : String → Bool,
       runDrainRace stDrain ⟨⟨5, [171]⟩, 4⟩ ⟨stDrain.published_topics.length, 0, false⟩
           (List.replicate stDrain.published_topics.length false)
         = (stDrain,
            (clear_retained_messages fails stDrain.published_topics).map Prod.fst)) ∧
     (runDrainRace stDrain ⟨⟨5, [171]⟩, 0⟩ ⟨stDrain.published_topics.length, 0, false⟩
        [false, true, true, true, true, false]).2.filter (fun p => p.payload = none)
      = [⟨"can/received/Speed", none, true⟩]) :=
  ⟨rfl, rfl, by decide,
   c9_registry_drain_race stDrain ⟨5, [171]⟩ "can/received/Speed" "can/received/Gear"
     [] rfl rfl (by decide)⟩

/-- Claim C10: implicit KeyError routing on the inbound path.  When the
codec resolves a frame's id but decoding the payload raises `KeyError`, the
frame handler behaves exactly as `handle_unknown_message`: on a fresh key the
frame is published as the raw-hex envelope under
`can/received/Unknown_<id>` — it is not logged as a decode error. -/
theorem c10_keyerror_routing (codec : Codec) (st : BridgeState) (msg : RawFrame)
    (m : MessageDef)
    (hres : codec.get_message_by_frame_id msg.arbitration_id = some m)
    (hdec : codec.decode m msg.data = .error .keyError) :
    on_can_message codec st msg = handle_unknown_message st msg ∧
    (dictGet st.last_unknown_messages msg.arbitration_id = none →
      on_can_message codec st msg =
        ((on_can_message codec st msg).1,
         ⟨[⟨"can/received/Unknown_" ++ toString msg.arbitration_id,
            some (envelopeJson msg), true⟩], [], []⟩)) := by
  have hroute := on_can_keyError_route codec st msg (by simp [on_can_message_body, hres, hdec])
  refine ⟨hroute, ?_⟩
  intro hfresh
  rw [hroute, handle_unknown_changed st msg (by simp [hfresh])]

/-- Witness for C10 at a concrete input: a codec that resolves id 0x100 but
whose decode raises `KeyError` on data `[7]`. -/
theorem c10_keyerror_routing_witness :
    decodeKeyErrCodec.get_message_by_frame_id (RawFrame.mk 256 [7]).arbitration_id
        = some speedDef ∧
    decodeKeyErrCodec.decode speedDef [7] = .error .keyError ∧
    (on_can_message decodeKeyErrCodec stEmpty ⟨256, [7]⟩
        = handle_unknown_message stEmpty ⟨256, [7]⟩ ∧
     (dictGet stEmpty.last_unknown_messages (RawFrame.mk 256 [7]).arbitration_id = none →
       on_can_message decodeKeyErrCodec stEmpty ⟨256, [7]⟩ =
         ((on_can_message decodeKeyErrCodec stEmpty ⟨256, [7]⟩).1,
          ⟨[⟨"can/received/Unknown_" ++ toString (RawFrame.mk 256 [7]).arbitration_id,
             some (envelopeJson ⟨256, [7]⟩), true⟩], [], []⟩))) :=
  ⟨rfl, rfl, c10_keyerror_routing decodeKeyErrCodec stEmpty ⟨256, [7]⟩ speedDef rfl rfl⟩
